import Mathlib

/-!
Verification development for the Smart-Resource-Scheduler repository.

The definitions below are a shallow embedding of the C++ sources:

* `src/src/core/ProcessManager.cpp` — guarded process-control operations over a
  table of `ManagedProcess` records;
* `src/src/core/MemoryManager.cpp` — memory-pressure classification and the
  emergency kill path;
* `src/unnamed/part_002` (`ModeManager.cpp`) — transactional mode switching with
  backup/restore;
* `src/unnamed/part_010` (`Scheduler.cpp`) — priority-based and
  multilevel-feedback selection;
* `src/unnamed/part_005` (`SystemMonitor.cpp`) — the process poll.

Host interaction (signals via `kill`, `setpriority`, sysfs writes) is embedded
as explicit state transitions on a process table, with per-process oracles for
the outcomes the host controls (permission, whether a process exits on the
graceful termination signal).  Every host call is additionally recorded in a
ghost trace so that theorems can speak about which calls were issued.
Machine doubles that only ever hold exact small decimals are embedded as `ℚ`;
machine integers as `Int`/`Nat` (no overflow is reachable at the values the
code handles).
-/

namespace SmartResourceScheduler

/-! ## Basic data model (types.h / ProcessManager.h, reconstructed from the .cpp uses) -/

/-- `ProcessState` of a `ManagedProcess` (`RUNNING`, `SUSPENDED`, `TERMINATED`). -/
inductive PState where
  | RUNNING
  | SUSPENDED
  | TERMINATED
deriving Repr, DecidableEq

/-- Host-side run state of a pid: live and running, live but stopped by a stop
signal, or gone. -/
inductive HostRun where
  | running
  | stopped
  | dead
deriving Repr, DecidableEq

/-- The signals the code sends through `kill` (`SIGNULL` is the null-signal
permission probe `kill(pid, 0)`).  `SIGKILL` is included so theorems can state
that no force-kill is ever issued. -/
inductive Sig where
  | SIGTERM
  | SIGSTOP
  | SIGCONT
  | SIGKILL
  | SIGNULL
deriving Repr, DecidableEq

/-- The part of a `ManagedProcess` record the claims are about.
`priority`s are the integer nice values the code casts `ProcessPriority` to. -/
structure ManagedEntry where
  original_priority : Int
  current_priority : Int
  current_state : PState
  last_action_time : Nat
  is_critical : Bool
  category : String
deriving Repr, DecidableEq

/-- One process as the host and the monitor see it, together with its optional
`ManagedProcess` entry.  `perm` is the host-permission oracle (does `kill` /
`setpriority` on this pid succeed), `diesOnTerm` whether the process exits when
it receives the graceful termination signal, `sigDeliveryFails` the host
nondeterminism oracle for real (non-probe) signals — the pid can vanish between
the null-signal probe and the signal proper, so a delivery may fail even after
the probe succeeded — and `rss_kb` its resident memory as reported by the
monitor. -/
structure Proc where
  pid : Nat
  name : String
  rss_kb : Nat
  hostNice : Int
  hostRun : HostRun
  perm : Bool
  diesOnTerm : Bool
  sigDeliveryFails : Bool
  managed : Option ManagedEntry
deriving Repr, DecidableEq

/-- ProcessManager state: the process table plus the statistics counters, and
ghost traces of the host calls issued (`sigTrace` for `kill`, `niceTrace` for
`setpriority`). -/
structure PMSt where
  procs : List Proc
  total_terminated : Nat
  total_suspended : Nat
  sigTrace : List (Nat × Sig)
  niceTrace : List (Nat × Int)
deriving Repr, DecidableEq

/-- A process is live (present in `/proc`, hence in the monitor's list) unless
it is dead; a stopped process is still listed. -/
def hostAlive (p : Proc) : Bool := p.hostRun ≠ HostRun.dead

def findProc (s : PMSt) (pid : Nat) : Option Proc :=
  s.procs.find? (fun p => p.pid == pid)

/-- Update every table slot holding `pid` (pids are unique in any well-formed
state, see `pidsNodup`). -/
def updateProc (s : PMSt) (pid : Nat) (f : Proc → Proc) : PMSt :=
  { s with procs := s.procs.map (fun p => if p.pid == pid then f p else p) }

/-- Append a `kill` call to the ghost trace. -/
def logSig (s : PMSt) (pid : Nat) (sig : Sig) : PMSt :=
  { s with sigTrace := s.sigTrace ++ [(pid, sig)] }

/-- Append a `setpriority` call to the ghost trace. -/
def logNice (s : PMSt) (pid : Nat) (v : Int) : PMSt :=
  { s with niceTrace := s.niceTrace ++ [(pid, v)] }

/-- `total_suspended_processes_++`. -/
def bumpSuspended (s : PMSt) : PMSt :=
  { s with total_suspended := s.total_suspended + 1 }

/-- `total_terminated_processes_++`. -/
def bumpTerminated (s : PMSt) : PMSt :=
  { s with total_terminated := s.total_terminated + 1 }

/-- `SystemMonitor::getProcess`: the monitor lists live processes only. -/
def monitorGetProcess (s : PMSt) (pid : Nat) : Option Proc :=
  s.procs.find? (fun p => p.pid == pid && hostAlive p)

/-- `SystemMonitor::isProcessRunning`. -/
def isProcessRunning (s : PMSt) (pid : Nat) : Bool :=
  (monitorGetProcess s pid).isSome

/-! ## ProcessManager (src/src/core/ProcessManager.cpp) -/

/-- The fixed critical-process name list from the `ProcessManager` constructor. -/
def critical_process_names : List String :=
  ["init", "kernel", "kthreadd", "systemd", "dbus", "networkd",
   "X", "Xorg", "gdm", "lightdm", "pulseaudio", "NetworkManager"]

/-- The system-process name fragments from the `ProcessManager` constructor. -/
def system_process_names : List String :=
  ["ksoftirqd", "migration", "rcu_", "watchdog", "systemd-",
   "kworker", "irq/", "mmcqd", "jbd2", "ext4-", "usb-storage"]

/-- `ProcessManager::isProcessCritical`: exact membership in the fixed list. -/
def isProcessCritical (name : String) : Bool :=
  critical_process_names.contains name

/-- `name.find(fragment) != npos` in the C++ sources. -/
def containsSubstr (s pat : String) : Bool :=
  s.toList.tails.any (fun t => pat.toList.isPrefixOf t)

/-- `ProcessManager::isSystemProcess`: substring match against the fragments. -/
def isSystemProcess (name : String) : Bool :=
  system_process_names.any (fun frag => containsSubstr name frag)

/-- `ProcessManager::categorizeProcess`. -/
def categorizeProcess (name : String) : String :=
  if isProcessCritical name then "critical"
  else if isSystemProcess name then "system"
  else
    let lower := name.toLower
    if containsSubstr lower "game" || containsSubstr lower "steam" ||
       containsSubstr lower "wine" then "gaming"
    else if containsSubstr lower "browser" || containsSubstr lower "firefox" ||
            containsSubstr lower "chrome" || containsSubstr lower "office" ||
            containsSubstr lower "editor" then "productivity"
    else "user"

/-- Effect of a delivered signal on the host run state. -/
def applySig (sig : Sig) (p : Proc) : Proc :=
  match sig with
  | Sig.SIGSTOP => { p with hostRun := HostRun.stopped }
  | Sig.SIGCONT => { p with hostRun := HostRun.running }
  | Sig.SIGTERM => if p.diesOnTerm then { p with hostRun := HostRun.dead } else p
  | Sig.SIGKILL => { p with hostRun := HostRun.dead }
  | Sig.SIGNULL => p

/-- `ProcessManager::sendSignal` (`kill(pid, signal)`): succeeds iff the pid
exists, is not gone, the host grants permission, and — for a real signal — the
per-pid transient-failure oracle does not fire; the call is recorded in the
ghost trace either way. -/
def sendSignal (s : PMSt) (pid : Nat) (sig : Sig) : Bool × PMSt :=
  let s1 := logSig s pid sig
  match findProc s1 pid with
  | none => (false, s1)
  | some p =>
    if p.perm && hostAlive p && (sig == Sig.SIGNULL || !p.sigDeliveryFails) then
      (true, updateProc s1 pid (applySig sig))
    else
      (false, s1)

/-- `ProcessManager::setProcessNiceValue`: clamp to `[-20, 19]`, then
`setpriority`; recorded in the ghost trace. -/
def setProcessNiceValue (s : PMSt) (pid : Nat) (nice_value : Int) : Bool × PMSt :=
  let v := max (-20) (min 19 nice_value)
  let s1 := logNice s pid v
  match findProc s1 pid with
  | none => (false, s1)
  | some p =>
    if p.perm && hostAlive p then
      (true, updateProc s1 pid (fun q => { q with hostNice := v }))
    else
      (false, s1)

/-- `ProcessManager::getProcessNiceValue` (`getpriority`, defaulting to 0). -/
def getProcessNiceValue (s : PMSt) (pid : Nat) : Int :=
  match findProc s pid with
  | some p => if hostAlive p then p.hostNice else 0
  | none => 0

/-- `ProcessManager::killProcess`: a single graceful termination signal. -/
def killProcess (s : PMSt) (pid : Nat) : Bool × PMSt :=
  sendSignal s pid Sig.SIGTERM

/-- `ProcessManager::suspendProcess`: the stop signal. -/
def suspendProcess (s : PMSt) (pid : Nat) : Bool × PMSt :=
  sendSignal s pid Sig.SIGSTOP

/-- The internal continue-signal action of `ProcessManager` (lines 194–196).
In the source it carries the same name and signature as the public
`resumeProcess`, so the public method's call `this->resumeProcess(pid)` names
itself; the embedding keeps the two operations apart under distinct names
(`resumeProcessSignal` here), following the declared intent. -/
def resumeProcessSignal (s : PMSt) (pid : Nat) : Bool × PMSt :=
  sendSignal s pid Sig.SIGCONT

/-- `ProcessManager::setPriority`: `ProcessPriority` values are used directly
as nice values. -/
def setPriority (s : PMSt) (pid : Nat) (priority : Int) : Bool × PMSt :=
  setProcessNiceValue s pid priority

/-- `ProcessManager::hasPermission`: the null-signal probe `kill(pid, 0)`. -/
def hasPermission (s : PMSt) (pid : Nat) : Bool × PMSt :=
  sendSignal s pid Sig.SIGNULL

/-- `ProcessManager::canModifyProcess`: reject unknown pids, then critical
names — before any host call — then probe permission. -/
def canModifyProcess (s : PMSt) (pid : Nat) : Bool × PMSt :=
  match monitorGetProcess s pid with
  | none => (false, s)
  | some info =>
    if isProcessCritical info.name then (false, s)
    else hasPermission s pid

/-- Update the managed entry of `pid`, if one exists. -/
def updateEntry (s : PMSt) (pid : Nat) (f : ManagedEntry → ManagedEntry) : PMSt :=
  updateProc s pid (fun p => { p with managed := p.managed.map f })

/-- Whether `pid` has a managed entry. -/
def hasEntry (s : PMSt) (pid : Nat) : Bool :=
  match findProc s pid with
  | some p => p.managed.isSome
  | none => false

/-- `ProcessManager::terminateProcess`: guard, record the `TERMINATED` state
and bump the counter if an entry exists, then send the single graceful
termination signal and return its outcome. -/
def terminateProcess (s : PMSt) (pid : Nat) (now : Nat) : Bool × PMSt :=
  let g := canModifyProcess s pid
  if !g.1 then (false, g.2)
  else
    let s1 :=
      if hasEntry g.2 pid then
        bumpTerminated (updateEntry g.2 pid (fun m =>
          { m with current_state := PState.TERMINATED, last_action_time := now }))
      else g.2
    killProcess s1 pid

/-- `ProcessManager::pauseProcess`: guard, record the `SUSPENDED` state and
bump the counter if an entry exists, then send the stop signal and return its
outcome. -/
def pauseProcess (s : PMSt) (pid : Nat) (now : Nat) : Bool × PMSt :=
  let g := canModifyProcess s pid
  if !g.1 then (false, g.2)
  else
    let s1 :=
      if hasEntry g.2 pid then
        bumpSuspended (updateEntry g.2 pid (fun m =>
          { m with current_state := PState.SUSPENDED, last_action_time := now }))
      else g.2
    suspendProcess s1 pid

/-- Public `ProcessManager::resumeProcess` (lines 92–105): no guard; mark a
suspended entry `RUNNING`, then issue the continue-signal action (the
self-named call of line 101, see `resumeProcessSignal`). -/
def resumeProcess (s : PMSt) (pid : Nat) (now : Nat) : Bool × PMSt :=
  let s :=
    match findProc s pid with
    | some p =>
      match p.managed with
      | some m =>
        if m.current_state = PState.SUSPENDED then
          updateEntry s pid (fun m' =>
            { m' with current_state := PState.RUNNING, last_action_time := now })
        else s
      | none => s
    | none => s
  resumeProcessSignal s pid

/-- `ProcessManager::setProcessPriority`: guard, record the new priority if an
entry exists, then apply it as a nice value. -/
def setProcessPriority (s : PMSt) (pid : Nat) (priority : Int) (now : Nat) :
    Bool × PMSt :=
  let g := canModifyProcess s pid
  if !g.1 then (false, g.2)
  else
    let s1 := updateEntry g.2 pid (fun m =>
      { m with current_priority := priority, last_action_time := now })
    setPriority s1 pid priority

/-- `ProcessManager::restoreProcessPriority`: unguarded; reset the recorded
priority to the original and re-apply it. -/
def restoreProcessPriority (s : PMSt) (pid : Nat) (now : Nat) : Bool × PMSt :=
  match findProc s pid with
  | some p =>
    match p.managed with
    | some m =>
      let s := updateEntry s pid (fun m' =>
        { m' with current_priority := m.original_priority, last_action_time := now })
      setPriority s pid m.original_priority
    | none => (false, s)
  | none => (false, s)

/-- Modelled from the spec: the `ProcessPriority` enum is declared in a header
absent from the sources; the spec states its integer values are used directly
as nice values and that low-priority demotion means "the lowest user-level
priority", so `LOW` is nice 19 and `HIGH` a favoured user nice. -/
def PRIORITY_LOW : Int := 19

/-- Modelled from the spec: see `PRIORITY_LOW`. -/
def PRIORITY_HIGH : Int := -10

/-- `ProcessManager::addToManaged`: only live pids; the entry records the
current host nice as both original and current priority. -/
def addToManaged (s : PMSt) (pid : Nat) (is_critical : Bool) (now : Nat) : PMSt :=
  if !isProcessRunning s pid then s
  else
    match monitorGetProcess s pid with
    | none => s
    | some info =>
      let nice := getProcessNiceValue s pid
      let entry : ManagedEntry :=
        { original_priority := nice
          current_priority := nice
          current_state := PState.RUNNING
          last_action_time := now
          is_critical := is_critical || isProcessCritical info.name
          category := categorizeProcess info.name }
      updateProc s pid (fun p => { p with managed := some entry })

/-- `ProcessManager::removeFromManaged`: best-effort restore (priority if it
was changed, continue signal if suspended), then drop the entry.  The
`resumeProcess(pid)` call of line 271 is the internal signal action, see
`resumeProcessSignal`. -/
def removeFromManaged (s : PMSt) (pid : Nat) : PMSt :=
  match findProc s pid with
  | some p =>
    match p.managed with
    | some m =>
      let s := if m.current_priority ≠ m.original_priority then
                 (setPriority s pid m.original_priority).2 else s
      let s := if m.current_state = PState.SUSPENDED then
                 (resumeProcessSignal s pid).2 else s
      updateProc s pid (fun q => { q with managed := none })
    | none => s
  | none => s

/-- `ProcessManager::restoreAllProcesses`: for every managed entry, resume if
suspended, restore the original priority if it was changed. -/
def restoreAllProcesses (s : PMSt) : PMSt :=
  (s.procs.map (·.pid)).foldl (fun s pid =>
    match findProc s pid with
    | some p =>
      match p.managed with
      | some m =>
        let s := if m.current_state = PState.SUSPENDED then
                   (resumeProcessSignal s pid).2 else s
        if m.current_priority ≠ m.original_priority then
          (setPriority s pid m.original_priority).2 else s
      | none => s
    | none => s) s

/-- `ProcessManager::updateManagedProcessInfo`: drop entries whose pid is no
longer running. -/
def updateManagedProcessInfo (s : PMSt) : PMSt :=
  { s with procs := s.procs.map (fun p =>
      if hostAlive p then p else { p with managed := none }) }

/-- `SystemMonitor::getProcessesByName`: live processes whose name contains
the fragment. -/
def getProcessesByName (s : PMSt) (name : String) : List Proc :=
  s.procs.filter (fun p => hostAlive p && containsSubstr p.name name)

/-- `ProcessManager::handleHighSystemLoad`: demote every managed, non-critical,
non-gaming process. -/
def handleHighSystemLoad (s : PMSt) (now : Nat) : PMSt :=
  (s.procs.map (·.pid)).foldl (fun s pid =>
    match findProc s pid with
    | some p =>
      match p.managed with
      | some m =>
        if !m.is_critical && m.category ≠ "gaming" then
          (setProcessPriority s pid PRIORITY_LOW now).2
        else s
      | none => s
    | none => s) s

/-- `ProcessManager::pauseProcessesByCategory`. -/
def pauseProcessesByCategory (s : PMSt) (category : String) (now : Nat) : PMSt :=
  (s.procs.map (·.pid)).foldl (fun s pid =>
    match findProc s pid with
    | some p =>
      match p.managed with
      | some m =>
        if m.category == category && !m.is_critical then
          (pauseProcess s pid now).2
        else s
      | none => s
    | none => s) s

/-- `ProcessManager::resumeProcessesByCategory`. -/
def resumeProcessesByCategory (s : PMSt) (category : String) (now : Nat) : PMSt :=
  (s.procs.map (·.pid)).foldl (fun s pid =>
    match findProc s pid with
    | some p =>
      match p.managed with
      | some m =>
        if m.category == category && m.current_state = PState.SUSPENDED then
          (resumeProcess s pid now).2
        else s
      | none => s
    | none => s) s

/-- `ProcessManager::terminateProcessesByName`. -/
def terminateProcessesByName (s : PMSt) (name : String) (now : Nat) : PMSt :=
  (getProcessesByName s name).foldl (fun s p => (terminateProcess s p.pid now).2) s

/-- `SystemMonitor::getTopMemoryProcesses`: live processes sorted by resident
memory, descending, truncated. -/
def getTopMemoryProcesses (s : PMSt) (count : Nat) : List Proc :=
  ((s.procs.filter hostAlive).mergeSort (fun a b => b.rss_kb ≤ a.rss_kb)).take count

/-- `ProcessManager::memory_warning_threshold_kb_` (1 GB). -/
def pm_memory_warning_threshold_kb : Nat := 1024 * 1024

/-- `ProcessManager::emergencyKillHighMemoryProcesses`: terminate the top-5
memory processes that are not critical and exceed the warning threshold. -/
def emergencyKillHighMemoryProcesses (s : PMSt) (now : Nat) : PMSt :=
  (getTopMemoryProcesses s 5).foldl (fun s p =>
    if !isProcessCritical p.name && p.rss_kb > pm_memory_warning_threshold_kb then
      (terminateProcess s p.pid now).2
    else s) s

/-! ## MemoryManager (src/src/core/MemoryManager.cpp) -/

/-- `MemoryPressureLevel`. -/
inductive MemoryPressureLevel where
  | LOW
  | MEDIUM
  | HIGH
  | CRITICAL
deriving Repr, DecidableEq

/-- `MemoryManager::getMemoryUsagePercent`: `100.0 * used / total`, 0 when the
total is unknown. -/
def getMemoryUsagePercent (total_memory_kb used_memory_kb : Nat) : ℚ :=
  if 0 < total_memory_kb then
    (100 * (used_memory_kb : ℚ)) / (total_memory_kb : ℚ)
  else 0

/-- Default `low_memory_threshold_` (70.0). -/
def low_memory_threshold_default : ℚ := 70

/-- Default `critical_memory_threshold_` (90.0). -/
def critical_memory_threshold_default : ℚ := 90

/-- `MemoryManager::calculateMemoryPressure`, parameterised by the two
configured thresholds. -/
def calculateMemoryPressure (low_thr crit_thr : ℚ)
    (total_memory_kb used_memory_kb : Nat) : MemoryPressureLevel :=
  let usage_percent := getMemoryUsagePercent total_memory_kb used_memory_kb
  if usage_percent ≥ crit_thr then MemoryPressureLevel.CRITICAL
  else if usage_percent ≥ (low_thr + crit_thr) / 2 then MemoryPressureLevel.HIGH
  else if usage_percent ≥ low_thr then MemoryPressureLevel.MEDIUM
  else MemoryPressureLevel.LOW

/-- `MemoryManager::identifyMemoryHogs`: pids of the monitored processes,
sorted by resident memory descending, truncated. -/
def identifyMemoryHogs (s : PMSt) (count : Nat) : List Nat :=
  (getTopMemoryProcesses s count).map (·.pid)

/-- `MemoryManager::getProcessMemoryInfo`, reduced to the resident size the
kill path reads (absent entries give the default 0). -/
def getProcessMemoryRss (s : PMSt) (pid : Nat) : Nat :=
  match monitorGetProcess s pid with
  | some p => p.rss_kb
  | none => 0

/-- `MemoryManager::optimizeProcessMemory`: a soft action, demote only. -/
def optimizeProcessMemory (s : PMSt) (pid : Nat) (now : Nat) : PMSt :=
  if !isProcessRunning s pid then s
  else (setProcessPriority s pid PRIORITY_LOW now).2

/-- `MemoryManager::killMemoryHoggingProcesses`: walk the top-10 memory hogs,
stop once enough is freed, skip pids the guard rejects, terminate the rest and
account their resident size. -/
def killMemoryHoggingProcesses (s : PMSt) (target_free_kb : Nat) (now : Nat) :
    Nat × PMSt :=
  (identifyMemoryHogs s 10).foldl (fun acc pid =>
    if acc.1 ≥ target_free_kb then acc
    else
      let rss := getProcessMemoryRss acc.2 pid
      let g := canModifyProcess acc.2 pid
      if !g.1 then (acc.1, g.2)
      else
        let t := terminateProcess g.2 pid now
        if t.1 then (acc.1 + rss, t.2) else (acc.1, t.2)) (0, s)

/-! ## Basic lemmas about the embedding -/

theorem applySig_pid (sig : Sig) (p : Proc) : (applySig sig p).pid = p.pid := by
  cases sig
  case SIGTERM =>
    simp only [applySig]
    split <;> rfl
  all_goals rfl

theorem applySig_signull (p : Proc) : applySig Sig.SIGNULL p = p := rfl

theorem updateProc_pids (s : PMSt) (pid : Nat) (f : Proc → Proc)
    (hf : ∀ p, (f p).pid = p.pid) :
    (updateProc s pid f).procs.map (·.pid) = s.procs.map (·.pid) := by
  unfold updateProc
  simp only [List.map_map]
  apply List.map_congr_left
  intro p _
  simp only [Function.comp]
  split
  · exact hf p
  · rfl

theorem findProc_update (s : PMSt) (pid pid' : Nat) (f : Proc → Proc)
    (hf : ∀ p, (f p).pid = p.pid) :
    findProc (updateProc s pid f) pid' =
      (findProc s pid').map (fun p => if p.pid == pid then f p else p) := by
  unfold findProc updateProc
  rw [List.find?_map]
  have hpred : ((fun q => q.pid == pid') ∘ fun p => if p.pid == pid then f p else p)
      = (fun q : Proc => q.pid == pid') := by
    funext p
    simp only [Function.comp]
    split
    · rw [hf]
    · rfl
  rw [hpred]

theorem updateProc_signull (s : PMSt) (pid : Nat) :
    updateProc s pid (applySig Sig.SIGNULL) = s := by
  unfold updateProc
  have h : s.procs.map
      (fun p => if p.pid == pid then applySig Sig.SIGNULL p else p) = s.procs := by
    simp [applySig_signull]
  rw [h]

theorem find?_strengthen {l : List Proc} {pid : Nat} {p : Proc}
    (h : l.find? (fun q => q.pid == pid) = some p) (ha : hostAlive p = true) :
    l.find? (fun q => q.pid == pid && hostAlive q) = some p := by
  induction l with
  | nil => simp at h
  | cons a l ih =>
    by_cases hc : (a.pid == pid) = true
    · have h' : some a = some p := by
        rw [← h]
        exact (List.find?_cons_of_pos (p := fun q => q.pid == pid) l hc).symm
      have hap : a = p := Option.some.inj h'
      subst hap
      exact List.find?_cons_of_pos (p := fun q => q.pid == pid && hostAlive q)
        (a := a) l (by simp [hc, ha])
    · have h' : l.find? (fun q => q.pid == pid) = some p := by
        rw [← h]
        exact (List.find?_cons_of_neg (p := fun q => q.pid == pid) (a := a) l
          (by simp [hc])).symm
      rw [List.find?_cons_of_neg (p := fun q => q.pid == pid && hostAlive q)
        (a := a) l (by simp [hc])]
      exact ih h'

theorem findProc_monitor {s : PMSt} {pid : Nat} {p : Proc}
    (h : findProc s pid = some p) (ha : hostAlive p = true) :
    monitorGetProcess s pid = some p :=
  find?_strengthen h ha

theorem monitorGetProcess_spec {s : PMSt} {pid : Nat} {p : Proc}
    (h : monitorGetProcess s pid = some p) :
    p ∈ s.procs ∧ p.pid = pid ∧ hostAlive p = true := by
  unfold monitorGetProcess at h
  refine ⟨List.mem_of_find?_eq_some h, ?_, ?_⟩
  · have := List.find?_some h
    simp at this
    exact this.1
  · have := List.find?_some h
    simp at this
    exact this.2


@[simp] theorem findProc_logSig (s : PMSt) (pid pid' : Nat) (sig : Sig) :
    findProc (logSig s pid sig) pid' = findProc s pid' := rfl

@[simp] theorem findProc_logNice (s : PMSt) (pid pid' : Nat) (v : Int) :
    findProc (logNice s pid v) pid' = findProc s pid' := rfl

@[simp] theorem findProc_bumpSuspended (s : PMSt) (pid : Nat) :
    findProc (bumpSuspended s) pid = findProc s pid := rfl

@[simp] theorem findProc_bumpTerminated (s : PMSt) (pid : Nat) :
    findProc (bumpTerminated s) pid = findProc s pid := rfl

theorem canModifyProcess_none (s : PMSt) (pid : Nat)
    (hm : monitorGetProcess s pid = none) :
    canModifyProcess s pid = (false, s) := by
  unfold canModifyProcess
  rw [hm]

theorem canModifyProcess_critical (s : PMSt) (pid : Nat) (p : Proc)
    (hm : monitorGetProcess s pid = some p) (hc : isProcessCritical p.name = true) :
    canModifyProcess s pid = (false, s) := by
  unfold canModifyProcess
  rw [hm]
  simp [hc]

theorem hasPermission_eq (s : PMSt) (pid : Nat) (p : Proc)
    (hf : findProc s pid = some p) :
    hasPermission s pid = (p.perm && hostAlive p, logSig s pid Sig.SIGNULL) := by
  unfold hasPermission sendSignal
  dsimp only
  have hf' : findProc (logSig s pid Sig.SIGNULL) pid = some p := hf
  rw [hf']
  by_cases hcond : (p.perm && hostAlive p) = true
  · simp only [hcond, Bool.true_and, Bool.and_true]
    simp [updateProc_signull]
  · simp only [Bool.and_assoc]
    rw [Bool.and_comm (hostAlive p)]
    simp only [← Bool.and_assoc]
    simp [hcond]

theorem canModifyProcess_pass (s : PMSt) (pid : Nat) (p : Proc)
    (hf : findProc s pid = some p) (ha : hostAlive p = true)
    (hc : isProcessCritical p.name = false) (hp : p.perm = true) :
    canModifyProcess s pid = (true, logSig s pid Sig.SIGNULL) := by
  unfold canModifyProcess
  rw [findProc_monitor hf ha]
  simp only [hc, Bool.false_eq_true, if_false]
  rw [hasPermission_eq s pid p hf, hp, ha]
  simp

theorem hasEntry_eq (s : PMSt) (pid : Nat) (p : Proc)
    (hf : findProc s pid = some p) :
    hasEntry s pid = p.managed.isSome := by
  unfold hasEntry
  rw [hf]

theorem updateProc_updateProc (s : PMSt) (pid : Nat) (f g : Proc → Proc)
    (hf : ∀ p, (f p).pid = p.pid) :
    updateProc (updateProc s pid f) pid g =
      updateProc s pid (fun p => g (f p)) := by
  unfold updateProc
  simp only [List.map_map]
  congr 1
  apply List.map_congr_left
  intro p _
  simp only [Function.comp]
  by_cases h : (p.pid == pid) = true
  · rw [if_pos h, if_pos (by rw [hf]; exact h), if_pos h]
  · rw [if_neg h, if_neg h, if_neg h]

/-- Explicit result of a `pauseProcess` call whose guard passes on a managed
pid: the entry is marked suspended and the counter bumped whatever the stop
signal does, and the returned flag is exactly the delivery outcome. -/
theorem pauseProcess_eq
    (s : PMSt) (pid now : Nat) (p : Proc) (m : ManagedEntry)
    (hf : findProc s pid = some p) (ha : hostAlive p = true)
    (hc : isProcessCritical p.name = false) (hp : p.perm = true)
    (hm : p.managed = some m) :
    pauseProcess s pid now =
      (!p.sigDeliveryFails,
       if p.sigDeliveryFails then
         logSig (bumpSuspended (updateEntry (logSig s pid Sig.SIGNULL) pid
           (fun mm => { mm with current_state := PState.SUSPENDED,
                                last_action_time := now }))) pid Sig.SIGSTOP
       else
         updateProc
           (logSig (bumpSuspended (updateEntry (logSig s pid Sig.SIGNULL) pid
             (fun mm => { mm with current_state := PState.SUSPENDED,
                                  last_action_time := now }))) pid Sig.SIGSTOP)
           pid (applySig Sig.SIGSTOP)) := by
  have hf0 : s.procs.find? (fun q => q.pid == pid) = some p := hf
  have hpid : (p.pid == pid) = true :=
    List.find?_some (p := fun (q : Proc) => q.pid == pid) hf0
  have hent : ∀ q : Proc, ({ q with managed := q.managed.map (fun mm =>
      { mm with current_state := PState.SUSPENDED,
                last_action_time := now }) } : Proc).pid = q.pid := fun _ => rfl
  have hf1 : findProc (logSig s pid Sig.SIGNULL) pid = some p := hf
  have hf2 : findProc (updateEntry (logSig s pid Sig.SIGNULL) pid
      (fun mm => { mm with current_state := PState.SUSPENDED,
                           last_action_time := now })) pid =
      some { p with managed := some { m with current_state := PState.SUSPENDED,
                                             last_action_time := now } } := by
    unfold updateEntry
    rw [findProc_update _ pid pid _ hent, hf1]
    have hpid' : p.pid = pid := by simpa using hpid
    simp [hpid', hm]
  have h1 : hasEntry (logSig s pid Sig.SIGNULL) pid = true := by
    rw [hasEntry_eq _ pid p hf1, hm]
    rfl
  unfold pauseProcess
  rw [canModifyProcess_pass s pid p hf ha hc hp]
  simp only [Bool.not_true, Bool.false_eq_true, if_false, h1, eq_self_iff_true,
    if_true]
  unfold suspendProcess sendSignal
  dsimp only
  have hf3 : findProc (logSig (bumpSuspended (updateEntry (logSig s pid Sig.SIGNULL)
      pid (fun mm => { mm with current_state := PState.SUSPENDED,
                               last_action_time := now }))) pid Sig.SIGSTOP) pid =
      some { p with managed := some { m with current_state := PState.SUSPENDED,
                                             last_action_time := now } } := hf2
  rw [hf3]
  have ha' : p.hostRun ≠ HostRun.dead := by
    simpa [hostAlive] using ha
  by_cases hfail : p.sigDeliveryFails = true
  · simp [hostAlive, ha', hp, hfail]
  · simp only [Bool.not_eq_true] at hfail
    simp [hostAlive, ha', hp, hfail]

theorem findProc_updateEntry (s : PMSt) (pid : Nat) (p : Proc)
    (f : ManagedEntry → ManagedEntry) (hf : findProc s pid = some p) :
    findProc (updateEntry s pid f) pid =
      some { p with managed := p.managed.map f } := by
  have hf0 : s.procs.find? (fun q => q.pid == pid) = some p := hf
  have hpid : p.pid = pid := by
    simpa using List.find?_some (p := fun (q : Proc) => q.pid == pid) hf0
  unfold updateEntry
  rw [findProc_update s pid pid
    (fun q => { q with managed := Option.map f q.managed }) (fun q => rfl), hf]
  simp [hpid]

/-- C10: for every pid that passes the guard (live, not critical, host
permission granted) and has a `ManagedProcess` entry, `pauseProcess` sets the
entry's `current_state` to `SUSPENDED`, updates `last_action_time` and
increments the suspended-process counter before the stop signal is sent, so
these record updates persist even when the signal delivery fails and the call
returns `false`; the returned flag is exactly the delivery outcome. -/
theorem c10_pause_records_before_stop_signal
    (s : PMSt) (pid now : Nat) (p : Proc) (m : ManagedEntry)
    (hf : findProc s pid = some p) (ha : hostAlive p = true)
    (hc : isProcessCritical p.name = false) (hp : p.perm = true)
    (hm : p.managed = some m) :
    (pauseProcess s pid now).2.total_suspended = s.total_suspended + 1 ∧
    (∃ p', findProc (pauseProcess s pid now).2 pid = some p' ∧
       p'.managed = some { m with current_state := PState.SUSPENDED,
                                  last_action_time := now }) ∧
    (pauseProcess s pid now).1 = !p.sigDeliveryFails := by
  have hf0 : s.procs.find? (fun q => q.pid == pid) = some p := hf
  have hpid : p.pid = pid := by
    simpa using List.find?_some (p := fun (q : Proc) => q.pid == pid) hf0
  have hS : findProc (logSig (bumpSuspended (updateEntry (logSig s pid Sig.SIGNULL)
      pid (fun mm => { mm with current_state := PState.SUSPENDED,
                               last_action_time := now }))) pid Sig.SIGSTOP) pid =
      some { p with managed := some { m with current_state := PState.SUSPENDED,
                                             last_action_time := now } } := by
    have h := findProc_updateEntry (logSig s pid Sig.SIGNULL) pid p
      (fun mm => { mm with current_state := PState.SUSPENDED,
                           last_action_time := now })
      (show findProc (logSig s pid Sig.SIGNULL) pid = some p from hf)
    rw [hm] at h
    exact h
  rw [pauseProcess_eq s pid now p m hf ha hc hp hm]
  by_cases hfail : p.sigDeliveryFails = true
  · rw [if_pos hfail]
    exact ⟨rfl, ⟨_, hS, rfl⟩, rfl⟩
  · rw [if_neg hfail]
    have hfinal : findProc (updateProc (logSig (bumpSuspended (updateEntry
        (logSig s pid Sig.SIGNULL) pid (fun mm =>
          { mm with current_state := PState.SUSPENDED, last_action_time := now })))
        pid Sig.SIGSTOP) pid (applySig Sig.SIGSTOP)) pid =
        some (applySig Sig.SIGSTOP
          { p with managed := some { m with current_state := PState.SUSPENDED,
                                             last_action_time := now } }) := by
      rw [findProc_update _ pid pid _ (applySig_pid Sig.SIGSTOP), hS]
      simp [hpid]
    exact ⟨rfl, ⟨_, hfinal, rfl⟩, rfl⟩

theorem applySig_managed (sig : Sig) (p : Proc) :
    (applySig sig p).managed = p.managed := by
  cases sig
  case SIGTERM =>
    simp only [applySig]
    split <;> rfl
  all_goals rfl

/-- Explicit result of a `terminateProcess` call whose guard passes on a
managed pid: the entry is marked terminated and the counter bumped whatever
the graceful signal does; exactly one termination signal is sent (never a
force-kill) and the returned flag is its delivery outcome. -/
theorem terminateProcess_eq
    (s : PMSt) (pid now : Nat) (p : Proc) (m : ManagedEntry)
    (hf : findProc s pid = some p) (ha : hostAlive p = true)
    (hc : isProcessCritical p.name = false) (hp : p.perm = true)
    (hm : p.managed = some m) :
    terminateProcess s pid now =
      (!p.sigDeliveryFails,
       if p.sigDeliveryFails then
         logSig (bumpTerminated (updateEntry (logSig s pid Sig.SIGNULL) pid
           (fun mm => { mm with current_state := PState.TERMINATED,
                                last_action_time := now }))) pid Sig.SIGTERM
       else
         updateProc
           (logSig (bumpTerminated (updateEntry (logSig s pid Sig.SIGNULL) pid
             (fun mm => { mm with current_state := PState.TERMINATED,
                                  last_action_time := now }))) pid Sig.SIGTERM)
           pid (applySig Sig.SIGTERM)) := by
  have hf0 : s.procs.find? (fun q => q.pid == pid) = some p := hf
  have hpid : (p.pid == pid) = true :=
    List.find?_some (p := fun (q : Proc) => q.pid == pid) hf0
  have hf1 : findProc (logSig s pid Sig.SIGNULL) pid = some p := hf
  have hf2 : findProc (updateEntry (logSig s pid Sig.SIGNULL) pid
      (fun mm => { mm with current_state := PState.TERMINATED,
                           last_action_time := now })) pid =
      some { p with managed := some { m with current_state := PState.TERMINATED,
                                             last_action_time := now } } := by
    have h := findProc_updateEntry (logSig s pid Sig.SIGNULL) pid p
      (fun mm => { mm with current_state := PState.TERMINATED,
                           last_action_time := now }) hf1
    rw [hm] at h
    exact h
  have h1 : hasEntry (logSig s pid Sig.SIGNULL) pid = true := by
    rw [hasEntry_eq _ pid p hf1, hm]
    rfl
  unfold terminateProcess
  rw [canModifyProcess_pass s pid p hf ha hc hp]
  simp only [Bool.not_true, Bool.false_eq_true, if_false, h1, eq_self_iff_true,
    if_true]
  unfold killProcess sendSignal
  dsimp only
  have hf3 : findProc (logSig (bumpTerminated (updateEntry (logSig s pid Sig.SIGNULL)
      pid (fun mm => { mm with current_state := PState.TERMINATED,
                               last_action_time := now }))) pid Sig.SIGTERM) pid =
      some { p with managed := some { m with current_state := PState.TERMINATED,
                                             last_action_time := now } } := hf2
  rw [hf3]
  have ha' : p.hostRun ≠ HostRun.dead := by
    simpa [hostAlive] using ha
  by_cases hfail : p.sigDeliveryFails = true
  · simp [hostAlive, ha', hp, hfail]
  · simp only [Bool.not_eq_true] at hfail
    simp [hostAlive, ha', hp, hfail]

/-! ## Concrete test fixtures -/

/-- Fixture: an ordinary managed user process whose stop-signal delivery fails
transiently (the pid vanishes between probe and signal). -/
def flakyProc : Proc :=
  { pid := 7, name := "myapp", rss_kb := 2048, hostNice := 0,
    hostRun := HostRun.running, perm := true, diesOnTerm := true,
    sigDeliveryFails := true,
    managed := some { original_priority := 0, current_priority := 0,
                      current_state := PState.RUNNING, last_action_time := 0,
                      is_critical := false, category := "user" } }

/-- Fixture: a one-process table around `flakyProc`. -/
def flakySt : PMSt :=
  { procs := [flakyProc], total_terminated := 0, total_suspended := 0,
    sigTrace := [], niceTrace := [] }

/-- Witness for `c10_pause_records_before_stop_signal` at a concrete state
whose stop-signal delivery fails: the record updates persist and the call
returns `false`. -/
theorem c10_pause_records_before_stop_signal_witness :
    (pauseProcess flakySt 7 5).2.total_suspended = flakySt.total_suspended + 1 ∧
    (∃ p', findProc (pauseProcess flakySt 7 5).2 7 = some p' ∧
       p'.managed = some { original_priority := 0, current_priority := 0,
                           current_state := PState.SUSPENDED,
                           last_action_time := 5,
                           is_critical := false, category := "user" }) ∧
    (pauseProcess flakySt 7 5).1 = !flakyProc.sigDeliveryFails :=
  c10_pause_records_before_stop_signal flakySt 7 5 flakyProc
    { original_priority := 0, current_priority := 0,
      current_state := PState.RUNNING, last_action_time := 0,
      is_critical := false, category := "user" }
    rfl rfl rfl rfl rfl

/-- Fixture: a live, permitted, non-critical process that ignores the graceful
termination signal. -/
def stubbornProc : Proc :=
  { pid := 9, name := "stubborn", rss_kb := 500, hostNice := 0,
    hostRun := HostRun.running, perm := true, diesOnTerm := false,
    sigDeliveryFails := false, managed := none }

/-- Fixture: a one-process table around `stubbornProc`. -/
def stubbornSt : PMSt :=
  { procs := [stubbornProc], total_terminated := 0, total_suspended := 0,
    sigTrace := [], niceTrace := [] }

/-- C4 counterexample: on a process that survives the graceful termination
signal, `terminateProcess` returns `true`, issues no force-kill (the complete
host-call trace is one probe and one graceful signal) and makes no final
liveness probe, yet the pid is still alive — where the claim requires a
force-kill after a grace period and failure when a final probe still sees the
pid. -/
theorem c4_terminate_counterexample :
    (terminateProcess stubbornSt 9 3).1 = true ∧
    (terminateProcess stubbornSt 9 3).2.sigTrace =
      [(9, Sig.SIGNULL), (9, Sig.SIGTERM)] ∧
    (∃ p', findProc (terminateProcess stubbornSt 9 3).2 9 = some p' ∧
       hostAlive p' = true) :=
  ⟨rfl, rfl, ⟨_, rfl, rfl⟩⟩

/-- C4 (amended): `terminateProcess` fails with the state unchanged when the
guard rejects a critical name; when the guard passes on a managed pid it marks
the entry `TERMINATED`, bumps the terminated counter, sends exactly one
graceful termination signal — no force-kill, no grace wait, no final probe —
and returns that signal's delivery outcome. -/
theorem c4_terminate_amended
    (s : PMSt) (pid now : Nat) (p : Proc) (m : ManagedEntry)
    (hf : findProc s pid = some p) (ha : hostAlive p = true)
    (hp : p.perm = true) (hm : p.managed = some m) :
    (isProcessCritical p.name = true →
       terminateProcess s pid now = (false, s)) ∧
    (isProcessCritical p.name = false →
       (terminateProcess s pid now).1 = !p.sigDeliveryFails ∧
       (terminateProcess s pid now).2.sigTrace =
         s.sigTrace ++ [(pid, Sig.SIGNULL), (pid, Sig.SIGTERM)] ∧
       (terminateProcess s pid now).2.total_terminated = s.total_terminated + 1 ∧
       (∃ p', findProc (terminateProcess s pid now).2 pid = some p' ∧
          p'.managed = some { m with current_state := PState.TERMINATED,
                                     last_action_time := now })) := by
  have hf0 : s.procs.find? (fun q => q.pid == pid) = some p := hf
  have hpid : p.pid = pid := by
    simpa using List.find?_some (p := fun (q : Proc) => q.pid == pid) hf0
  constructor
  · intro hcrit
    unfold terminateProcess
    rw [canModifyProcess_critical s pid p (findProc_monitor hf ha) hcrit]
    rfl
  · intro hc
    have hS : findProc (logSig (bumpTerminated (updateEntry (logSig s pid
        Sig.SIGNULL) pid (fun mm => { mm with current_state := PState.TERMINATED,
                                              last_action_time := now })))
        pid Sig.SIGTERM) pid =
        some { p with managed := some { m with current_state := PState.TERMINATED,
                                               last_action_time := now } } := by
      have h := findProc_updateEntry (logSig s pid Sig.SIGNULL) pid p
        (fun mm => { mm with current_state := PState.TERMINATED,
                             last_action_time := now })
        (show findProc (logSig s pid Sig.SIGNULL) pid = some p from hf)
      rw [hm] at h
      exact h
    rw [terminateProcess_eq s pid now p m hf ha hc hp hm]
    by_cases hfail : p.sigDeliveryFails = true
    · rw [if_pos hfail]
      refine ⟨rfl, by simp [logSig, bumpTerminated, updateEntry, updateProc], rfl,
        ⟨_, hS, rfl⟩⟩
    · rw [if_neg hfail]
      have hfinal : findProc (updateProc (logSig (bumpTerminated (updateEntry
          (logSig s pid Sig.SIGNULL) pid (fun mm =>
            { mm with current_state := PState.TERMINATED,
                      last_action_time := now })))
          pid Sig.SIGTERM) pid (applySig Sig.SIGTERM)) pid =
          some (applySig Sig.SIGTERM
            { p with managed := some { m with current_state := PState.TERMINATED,
                                               last_action_time := now } }) := by
        rw [findProc_update _ pid pid _ (applySig_pid Sig.SIGTERM), hS]
        simp [hpid]
      refine ⟨rfl, by simp [logSig, bumpTerminated, updateEntry, updateProc], rfl,
        ⟨_, hfinal, ?_⟩⟩
      rw [applySig_managed]

/-- Witness for `c4_terminate_amended` at a concrete managed process. -/
theorem c4_terminate_amended_witness :
    (isProcessCritical flakyProc.name = true →
       terminateProcess flakySt 7 4 = (false, flakySt)) ∧
    (isProcessCritical flakyProc.name = false →
       (terminateProcess flakySt 7 4).1 = !flakyProc.sigDeliveryFails ∧
       (terminateProcess flakySt 7 4).2.sigTrace =
         flakySt.sigTrace ++ [(7, Sig.SIGNULL), (7, Sig.SIGTERM)] ∧
       (terminateProcess flakySt 7 4).2.total_terminated =
         flakySt.total_terminated + 1 ∧
       (∃ p', findProc (terminateProcess flakySt 7 4).2 7 = some p' ∧
          p'.managed = some { original_priority := 0, current_priority := 0,
                              current_state := PState.TERMINATED,
                              last_action_time := 4,
                              is_critical := false, category := "user" })) :=
  c4_terminate_amended flakySt 7 4 flakyProc
    { original_priority := 0, current_priority := 0,
      current_state := PState.RUNNING, last_action_time := 0,
      is_critical := false, category := "user" }
    rfl rfl rfl rfl

/-- Fixture: the display server — a critical-named process — that an earlier
fault left recorded as suspended and host-stopped. -/
def criticalStoppedProc : Proc :=
  { pid := 42, name := "Xorg", rss_kb := 4096, hostNice := 0,
    hostRun := HostRun.stopped, perm := true, diesOnTerm := false,
    sigDeliveryFails := false,
    managed := some { original_priority := 0, current_priority := 0,
                      current_state := PState.SUSPENDED, last_action_time := 0,
                      is_critical := true, category := "critical" } }

/-- Fixture: a one-process table around `criticalStoppedProc`. -/
def criticalStoppedSt : PMSt :=
  { procs := [criticalStoppedProc], total_terminated := 0, total_suspended := 0,
    sigTrace := [], niceTrace := [] }

/-- C9 (code defect, evaluated): the public `resumeProcess` makes no guard
call at all — on a critical-named pid it still flips the record to `RUNNING`,
issues the continue signal and returns `true`, where the claim requires the
call to fail when the criticality check fails.  (In the source the signal step
is `this->resumeProcess(pid)`, the method's own name and signature; the
embedding keeps the intended internal action as `resumeProcessSignal`.) -/
theorem c9_resume_ignores_guard_on_critical_pid :
    isProcessCritical criticalStoppedProc.name = true ∧
    (resumeProcess criticalStoppedSt 42 9).1 = true ∧
    (∃ p', findProc (resumeProcess criticalStoppedSt 42 9).2 42 = some p' ∧
       ∃ m', p'.managed = some m' ∧ m'.current_state = PState.RUNNING) :=
  ⟨rfl, rfl, ⟨_, rfl, ⟨_, rfl, rfl⟩⟩⟩

/-- C7: with `used_pct = 100 × used / total`, the pressure classification is
`CRITICAL` iff `used_pct ≥ critical_threshold`, else `HIGH` iff
`used_pct ≥ (low + critical)/2`, else `MEDIUM` iff `used_pct ≥ low_threshold`,
else `LOW`; with the default thresholds (70, 90) the `HIGH` cut is 80. -/
theorem c7_pressure_classification
    (low_thr crit_thr : ℚ) (total used : Nat) (htot : 0 < total) :
    ((calculateMemoryPressure low_thr crit_thr total used =
        MemoryPressureLevel.CRITICAL) ↔
      100 * (used : ℚ) / total ≥ crit_thr) ∧
    ((calculateMemoryPressure low_thr crit_thr total used =
        MemoryPressureLevel.HIGH) ↔
      (¬ 100 * (used : ℚ) / total ≥ crit_thr ∧
        100 * (used : ℚ) / total ≥ (low_thr + crit_thr) / 2)) ∧
    ((calculateMemoryPressure low_thr crit_thr total used =
        MemoryPressureLevel.MEDIUM) ↔
      (¬ 100 * (used : ℚ) / total ≥ crit_thr ∧
        ¬ 100 * (used : ℚ) / total ≥ (low_thr + crit_thr) / 2 ∧
        100 * (used : ℚ) / total ≥ low_thr)) ∧
    ((calculateMemoryPressure low_thr crit_thr total used =
        MemoryPressureLevel.LOW) ↔
      (¬ 100 * (used : ℚ) / total ≥ crit_thr ∧
        ¬ 100 * (used : ℚ) / total ≥ (low_thr + crit_thr) / 2 ∧
        ¬ 100 * (used : ℚ) / total ≥ low_thr)) ∧
    (low_memory_threshold_default + critical_memory_threshold_default) / 2
      = (80 : ℚ) := by
  refine ⟨?_, ?_, ?_, ?_, by
    norm_num [low_memory_threshold_default, critical_memory_threshold_default]⟩ <;>
  · unfold calculateMemoryPressure getMemoryUsagePercent
    rw [if_pos htot]
    dsimp only
    split_ifs with h1 h2 h3 <;> simp_all

/-- Witness for `c7_pressure_classification` at the default thresholds with
`total = 1000 kB`, `used = 850 kB` (85%: `HIGH`). -/
theorem c7_pressure_classification_witness :
    ((calculateMemoryPressure low_memory_threshold_default
        critical_memory_threshold_default 1000 850 =
        MemoryPressureLevel.CRITICAL) ↔
      100 * (850 : ℚ) / 1000 ≥ critical_memory_threshold_default) ∧
    ((calculateMemoryPressure low_memory_threshold_default
        critical_memory_threshold_default 1000 850 =
        MemoryPressureLevel.HIGH) ↔
      (¬ 100 * (850 : ℚ) / 1000 ≥ critical_memory_threshold_default ∧
        100 * (850 : ℚ) / 1000 ≥
          (low_memory_threshold_default + critical_memory_threshold_default) / 2)) ∧
    ((calculateMemoryPressure low_memory_threshold_default
        critical_memory_threshold_default 1000 850 =
        MemoryPressureLevel.MEDIUM) ↔
      (¬ 100 * (850 : ℚ) / 1000 ≥ critical_memory_threshold_default ∧
        ¬ 100 * (850 : ℚ) / 1000 ≥
          (low_memory_threshold_default + critical_memory_threshold_default) / 2 ∧
        100 * (850 : ℚ) / 1000 ≥ low_memory_threshold_default)) ∧
    ((calculateMemoryPressure low_memory_threshold_default
        critical_memory_threshold_default 1000 850 =
        MemoryPressureLevel.LOW) ↔
      (¬ 100 * (850 : ℚ) / 1000 ≥ critical_memory_threshold_default ∧
        ¬ 100 * (850 : ℚ) / 1000 ≥
          (low_memory_threshold_default + critical_memory_threshold_default) / 2 ∧
        ¬ 100 * (850 : ℚ) / 1000 ≥ low_memory_threshold_default)) ∧
    (low_memory_threshold_default + critical_memory_threshold_default) / 2
      = (80 : ℚ) :=
  c7_pressure_classification low_memory_threshold_default
    critical_memory_threshold_default 1000 850 (by decide)

/-! ## SystemMonitor (src/unnamed/part_005, SystemMonitor.cpp) -/

/-- The already-tokenised fields of `/proc/<pid>/stat`, plus the `VmRSS` line
of `status` and the NUL-joined `cmdline`, as `SystemMonitor::getProcessInfo`
reads them (host file I/O and string tokenisation sit outside the embedding;
entries that fail to parse are skipped and never reach this point). -/
structure ProcStatView where
  pid : Nat
  comm : String
  state : Char
  parent_pid : Int
  priority : Int
  thread_count : Int
  vsize_bytes : Nat
  rss_pages : Nat
  utime_ticks : Nat
  stime_ticks : Nat
  vmrss_kb : Nat
  cmdline : String
deriving Repr, DecidableEq

/-- `ProcessInfo` as filled in by `SystemMonitor::getProcessInfo`. -/
structure ProcessInfo where
  pid : Nat
  name : String
  state : Char
  parent_pid : Int
  priority : Int
  thread_count : Int
  virtual_memory_kb : Nat
  resident_memory_kb : Nat
  cpu_time_user : ℚ
  cpu_time_system : ℚ
  memory_usage_kb : Nat
  command : String
  cpu_usage : ℚ
deriving Repr, DecidableEq

/-- `SystemMonitor::getProcessInfo` on a successfully parsed entry
(`page_size` is `getpagesize()`, `clk_tck` is `sysconf(_SC_CLK_TCK)`).
The final line of the source sets `cpu_usage = 0.0` with the comment
"Will be calculated by comparing with previous readings". -/
def getProcessInfo (page_size clk_tck : Nat) (v : ProcStatView) : ProcessInfo :=
  { pid := v.pid
    name := v.comm
    state := v.state
    parent_pid := v.parent_pid
    priority := v.priority
    thread_count := v.thread_count
    virtual_memory_kb := v.vsize_bytes / 1024
    resident_memory_kb := v.rss_pages * page_size / 1024
    cpu_time_user := (v.utime_ticks : ℚ) / (clk_tck : ℚ)
    cpu_time_system := (v.stime_ticks : ℚ) / (clk_tck : ℚ)
    memory_usage_kb := v.vmrss_kb
    command := v.cmdline
    cpu_usage := 0 }

/-- `SystemMonitor::getProcessList` over the parseable pids of one poll. -/
def getProcessList (page_size clk_tck : Nat) (vs : List ProcStatView) :
    List ProcessInfo :=
  vs.map (getProcessInfo page_size clk_tck)

/-- One iteration of `SystemMonitor::monitorLoop` replaces the published
`processes_` with the fresh `getProcessList` result; the previous poll
(`prev`) is never consulted. -/
def monitorLoopPublish (prev : List ProcessInfo) (page_size clk_tck : Nat)
    (vs : List ProcStatView) : List ProcessInfo :=
  getProcessList page_size clk_tck vs

/-- Modelled from the spec: the per-process CPU formula the spec prescribes,
`cpu_pct = 100 × Δ(utime+stime) / max(Δglobal_total, 1)` (stated for
comparison with the published value; no code in the repository computes it). -/
def specCpuPct (delta_pid_active delta_global_total : Nat) : ℚ :=
  100 * (delta_pid_active : ℚ) / ((max delta_global_total 1 : Nat) : ℚ)

/-- C1 (code defect, evaluated): every process record the monitor publishes
carries `cpu_usage = 0` at every poll — `getProcessInfo` hardcodes the value
and `monitorLoop` publishes the fresh list without consulting the previous
poll — while the spec's delta formula yields 50 for a pid whose active ticks
advanced by 50 against a global advance of 100 between two polls. -/
theorem c1_published_cpu_usage_always_zero :
    (∀ (prev : List ProcessInfo) (page clk : Nat) (vs : List ProcStatView),
       (monitorLoopPublish prev page clk vs).all
         (fun p => decide (p.cpu_usage = 0)) = true) ∧
    specCpuPct 50 100 = 50 ∧ (50 : ℚ) ≠ 0 := by
  refine ⟨?_, by norm_num [specCpuPct], by norm_num⟩
  intro prev page clk vs
  rw [List.all_eq_true]
  intro p hp
  obtain ⟨v, _, rfl⟩ := List.mem_map.mp hp
  simp [getProcessInfo]

/-! ## ModeManager (src/unnamed/part_002, ModeManager.cpp) -/

/-- `SystemMode`. -/
inductive SystemMode where
  | GAMING
  | PRODUCTIVITY
  | POWER_SAVING
  | BALANCED
  | CUSTOM
deriving Repr, DecidableEq

/-- `SchedulingAlgorithm`. -/
inductive SchedulingAlgorithm where
  | PRIORITY_BASED
  | ROUND_ROBIN
  | MULTILEVEL_FEEDBACK
  | COMPLETELY_FAIR
  | CUSTOM_HYBRID
deriving Repr, DecidableEq

/-- `MemoryOptimizationStrategy`. -/
inductive MemoryOptimizationStrategy where
  | CONSERVATIVE
  | BALANCED
  | AGGRESSIVE
deriving Repr, DecidableEq

/-- The `ModeConfiguration` fields the mode builders set and the apply path
reads (time slice in milliseconds, brightness as a percentage). -/
structure ModeConfiguration where
  mode : SystemMode
  name : String
  scheduling_algorithm : SchedulingAlgorithm
  time_slice : Nat
  enable_real_time_boost : Bool
  enable_interactive_boost : Bool
  high_priority_processes : List String
  low_priority_processes : List String
  suspended_processes : List String
  memory_strategy : MemoryOptimizationStrategy
  enable_aggressive_cleanup : Bool
  memory_pressure_threshold : ℚ
  enable_swap : Bool
  cpu_usage_limit : ℚ
  enable_cpu_boost : Bool
  enable_turbo_boost : Bool
  cpu_governor : String
  screen_brightness : Int
  disabled_services : List String
  enabled_services : List String
deriving Repr, DecidableEq

/-- Modelled from the spec: the header declaring `ModeConfiguration`'s default
member initialisers is absent from the sources; the defaults are reconstructed
from the uses — `screen_brightness` must default negative (the apply path
guards on `>= 0` and only Power Saving sets it), lists empty, booleans false,
strings empty, numeric fields zero, `BALANCED`/`PRIORITY_BASED` as the
zero-valued enumerators. -/
def defaultModeConfiguration : ModeConfiguration :=
  { mode := SystemMode.BALANCED
    name := ""
    scheduling_algorithm := SchedulingAlgorithm.PRIORITY_BASED
    time_slice := 0
    enable_real_time_boost := false
    enable_interactive_boost := false
    high_priority_processes := []
    low_priority_processes := []
    suspended_processes := []
    memory_strategy := MemoryOptimizationStrategy.BALANCED
    enable_aggressive_cleanup := false
    memory_pressure_threshold := 0
    enable_swap := false
    cpu_usage_limit := 0
    enable_cpu_boost := false
    enable_turbo_boost := false
    cpu_governor := ""
    screen_brightness := -1
    disabled_services := []
    enabled_services := [] }

/-- `ModeManager::createGamingModeConfig`. -/
def createGamingModeConfig : ModeConfiguration :=
  { defaultModeConfiguration with
    mode := SystemMode.GAMING
    name := "Gaming Mode"
    scheduling_algorithm := SchedulingAlgorithm.PRIORITY_BASED
    time_slice := 50
    enable_real_time_boost := true
    enable_interactive_boost := true
    high_priority_processes :=
      ["steam", "game", "wine", "proton", "dota", "csgo",
       "unity", "unreal", "godot", "minecraft"]
    low_priority_processes := ["update", "backup", "indexer", "tracker"]
    suspended_processes := ["update-notifier", "packagekit", "snapd"]
    memory_strategy := MemoryOptimizationStrategy.CONSERVATIVE
    enable_aggressive_cleanup := false
    memory_pressure_threshold := 90
    enable_swap := false
    cpu_usage_limit := 100
    enable_cpu_boost := true
    enable_turbo_boost := true
    cpu_governor := "performance" }

/-- `ModeManager::createProductivityModeConfig`. -/
def createProductivityModeConfig : ModeConfiguration :=
  { defaultModeConfiguration with
    mode := SystemMode.PRODUCTIVITY
    name := "Productivity Mode"
    scheduling_algorithm := SchedulingAlgorithm.COMPLETELY_FAIR
    time_slice := 100
    enable_real_time_boost := false
    enable_interactive_boost := true
    high_priority_processes :=
      ["chrome", "firefox", "code", "vscode", "sublime",
       "intellij", "eclipse", "libreoffice", "gimp", "blender"]
    memory_strategy := MemoryOptimizationStrategy.BALANCED
    enable_aggressive_cleanup := false
    memory_pressure_threshold := 80
    enable_swap := true
    cpu_usage_limit := 90
    enable_cpu_boost := false
    enable_turbo_boost := false
    cpu_governor := "ondemand" }

/-- `ModeManager::createPowerSavingModeConfig` (the power-management fields not
read by the modelled apply path are omitted). -/
def createPowerSavingModeConfig : ModeConfiguration :=
  { defaultModeConfiguration with
    mode := SystemMode.POWER_SAVING
    name := "Power Saving Mode"
    scheduling_algorithm := SchedulingAlgorithm.ROUND_ROBIN
    time_slice := 200
    enable_real_time_boost := false
    enable_interactive_boost := false
    low_priority_processes := ["chrome", "firefox", "update", "indexer"]
    suspended_processes :=
      ["update-notifier", "packagekit", "snapd", "tracker-miner"]
    memory_strategy := MemoryOptimizationStrategy.AGGRESSIVE
    enable_aggressive_cleanup := true
    memory_pressure_threshold := 70
    enable_swap := true
    cpu_usage_limit := 50
    enable_cpu_boost := false
    enable_turbo_boost := false
    cpu_governor := "powersave"
    screen_brightness := 30 }

/-- `ModeManager::createBalancedModeConfig`. -/
def createBalancedModeConfig : ModeConfiguration :=
  { defaultModeConfiguration with
    mode := SystemMode.BALANCED
    name := "Balanced Mode"
    scheduling_algorithm := SchedulingAlgorithm.PRIORITY_BASED
    time_slice := 100
    enable_interactive_boost := true
    memory_strategy := MemoryOptimizationStrategy.BALANCED
    memory_pressure_threshold := 80
    enable_swap := true
    cpu_usage_limit := 100
    cpu_governor := "ondemand" }

/-- `ModeManager::getModeConfiguration` over the table built by
`initializeDefaultModes` (a mode without an entry — `CUSTOM` — yields the
default-constructed configuration). -/
def getModeConfiguration (mode : SystemMode) : ModeConfiguration :=
  match mode with
  | SystemMode.GAMING => createGamingModeConfig
  | SystemMode.PRODUCTIVITY => createProductivityModeConfig
  | SystemMode.POWER_SAVING => createPowerSavingModeConfig
  | SystemMode.BALANCED => createBalancedModeConfig
  | SystemMode.CUSTOM => defaultModeConfiguration

/-- `StateBackup`. -/
structure StateBackup where
  is_valid : Bool
  scheduler_algorithm : SchedulingAlgorithm
  cpu_governor : String
  process_priorities : List (Nat × Int)
  suspended_processes : List Nat
  memory_strategy : MemoryOptimizationStrategy
deriving Repr, DecidableEq

/-- ModeManager state: the shared process table plus the mode-visible knobs of
the scheduler (`sched_*`), the memory manager (`mem_*`) and the host
(`governor`, `turbo`, `brightness`). -/
structure MMSt where
  pm : PMSt
  current_mode : SystemMode
  previous_mode : SystemMode
  mode_switching_active : Bool
  sched_algorithm : SchedulingAlgorithm
  sched_time_slice : Nat
  sched_boosting : Bool
  mem_strategy : MemoryOptimizationStrategy
  mem_auto_opt : Bool
  mem_low_threshold : ℚ
  mem_swap : Bool
  governor : String
  turbo : Bool
  brightness : Int
  state_backup : StateBackup
deriving Repr, DecidableEq

/-- `ProcessManager::getAllManagedProcesses`, as `(pid, entry)` pairs. -/
def getAllManagedProcesses (s : PMSt) : List (Nat × ManagedEntry) :=
  s.procs.filterMap (fun p => p.managed.map (fun m => (p.pid, m)))

/-- `ModeManager::backupCurrentState`: the current scheduler algorithm, the
governor read back from sysfs, and per-managed-pid `(priority, suspended)`. -/
def backupCurrentState (s : MMSt) : MMSt :=
  { s with state_backup :=
    { is_valid := true
      scheduler_algorithm := s.sched_algorithm
      cpu_governor := s.governor
      process_priorities :=
        (getAllManagedProcesses s.pm).map (fun e => (e.1, e.2.current_priority))
      suspended_processes :=
        (getAllManagedProcesses s.pm).filterMap (fun e =>
          if e.2.current_state = PState.SUSPENDED then some e.1 else none)
      memory_strategy := MemoryOptimizationStrategy.BALANCED } }

/-- `ModeManager::restoreSystemState`: re-apply the backed-up algorithm and
governor (when non-empty), re-apply each backed-up priority to still-running
pids, resume each backed-up suspended pid, then invalidate the backup.  (The
priority and resume loops only touch the process table, so they are grouped
after the scalar restores without changing the result.) -/
def restoreSystemState (s : MMSt) (now : Nat) : MMSt :=
  if !s.state_backup.is_valid then s
  else
    let pm1 := s.state_backup.process_priorities.foldl (fun pm e =>
      if isProcessRunning pm e.1 then (setProcessPriority pm e.1 e.2 now).2
      else pm) s.pm
    let pm2 := s.state_backup.suspended_processes.foldl (fun pm pid =>
      if isProcessRunning pm pid then (resumeProcess pm pid now).2
      else pm) pm1
    { s with
      sched_algorithm := s.state_backup.scheduler_algorithm
      governor := if s.state_backup.cpu_governor ≠ "" then
                    s.state_backup.cpu_governor
                  else s.governor
      pm := pm2
      state_backup := { s.state_backup with is_valid := false } }

/-- One atomic action of `appleModeConfiguration` (sic — the source's name),
used to place the fault-injection point of an exception. -/
inductive MOp where
  | setAlgorithm (a : SchedulingAlgorithm)
  | setTimeSlice (n : Nat)
  | enableBoosting
  | setMemStrategy (st : MemoryOptimizationStrategy)
  | setMemAutoOpt (b : Bool)
  | setMemThreshold (t : ℚ)
  | setSwap (b : Bool)
  | setPrioPid (pid : Nat) (prio : Int)
  | pausePid (pid : Nat)
  | setGovernor (g : String)
  | stopService (svc : String)
  | startService (svc : String)
  | setBrightness (v : Int)
  | setTurbo (b : Bool)
deriving Repr, DecidableEq

/-- Effect of one apply action (`systemctl` start/stop only touches host
services outside the tracked state). -/
def execOp (s : MMSt) (now : Nat) (op : MOp) : MMSt :=
  match op with
  | MOp.setAlgorithm a => { s with sched_algorithm := a }
  | MOp.setTimeSlice n => { s with sched_time_slice := n }
  | MOp.enableBoosting => { s with sched_boosting := true }
  | MOp.setMemStrategy st => { s with mem_strategy := st }
  | MOp.setMemAutoOpt b => { s with mem_auto_opt := b }
  | MOp.setMemThreshold t => { s with mem_low_threshold := t }
  | MOp.setSwap b => { s with mem_swap := b }
  | MOp.setPrioPid pid prio => { s with pm := (setProcessPriority s.pm pid prio now).2 }
  | MOp.pausePid pid => { s with pm := (pauseProcess s.pm pid now).2 }
  | MOp.setGovernor g => { s with governor := g }
  | MOp.stopService _ => s
  | MOp.startService _ => s
  | MOp.setBrightness v => { s with brightness := v }
  | MOp.setTurbo b => { s with turbo := b }

/-- The action sequence of `appleModeConfiguration`, in source order:
`configureScheduler`, `configureMemoryManager`, `configureProcessPriorities`
(high list, low list, suspend list — computed against the process table, which
the earlier actions do not rename or remove, so the by-name queries match the
source's interleaved lookups), `configureCpuGovernor`,
`configureSystemServices`, `configurePowerManagement`. -/
def appleModeConfigurationOps (cfg : ModeConfiguration) (pm : PMSt) : List MOp :=
  [MOp.setAlgorithm cfg.scheduling_algorithm, MOp.setTimeSlice cfg.time_slice] ++
  (if cfg.enable_real_time_boost then [MOp.enableBoosting] else []) ++
  [MOp.setMemStrategy cfg.memory_strategy,
   MOp.setMemAutoOpt cfg.enable_aggressive_cleanup] ++
  (if cfg.memory_pressure_threshold > 0 then
     [MOp.setMemThreshold cfg.memory_pressure_threshold] else []) ++
  [MOp.setSwap cfg.enable_swap] ++
  (cfg.high_priority_processes.map (fun n =>
    (getProcessesByName pm n).map (fun p => MOp.setPrioPid p.pid PRIORITY_HIGH))).flatten ++
  (cfg.low_priority_processes.map (fun n =>
    (getProcessesByName pm n).map (fun p => MOp.setPrioPid p.pid PRIORITY_LOW))).flatten ++
  (cfg.suspended_processes.map (fun n =>
    (getProcessesByName pm n).map (fun p => MOp.pausePid p.pid))).flatten ++
  (if cfg.cpu_governor ≠ "" then [MOp.setGovernor cfg.cpu_governor] else []) ++
  cfg.disabled_services.map MOp.stopService ++
  cfg.enabled_services.map MOp.startService ++
  (if cfg.screen_brightness ≥ 0 then [MOp.setBrightness cfg.screen_brightness]
   else []) ++
  [MOp.setTurbo cfg.enable_turbo_boost]

/-- Run the apply actions under an exception oracle: `fuel` actions complete,
then — if actions remain — the exception is raised (`true` in the first
component). -/
def runOps (now : Nat) : MMSt → List MOp → Nat → Bool × MMSt
  | s, [], _ => (false, s)
  | s, _ :: _, 0 => (true, s)
  | s, op :: rest, k + 1 => runOps now (execOp s now op) rest k

/-- Body of `ModeManager::switchToMode` past its two rejection checks: set the
`switching` flag, back up, apply; on success commit the mode, on the injected
exception restore and fail. -/
def switchToModeGo (s : MMSt) (mode : SystemMode) (fuel : Option Nat)
    (now : Nat) : Bool × MMSt :=
  let s2 := backupCurrentState { s with mode_switching_active := true }
  let ops := appleModeConfigurationOps (getModeConfiguration mode) s2.pm
  let r := runOps now s2 ops (match fuel with | none => ops.length | some k => k)
  if r.1 then
    let s3 := restoreSystemState r.2 now
    (false, { s3 with mode_switching_active := false })
  else
    (true, { r.2 with previous_mode := r.2.current_mode,
                      current_mode := mode,
                      mode_switching_active := false })

/-- `ModeManager::switchToMode`, with `fuel = some k` injecting an exception
after `k` apply actions (`none`: no exception).  Mirrors the source: reject
while a switch is in flight, reject the active mode, then run the body. -/
def switchToMode (s : MMSt) (mode : SystemMode) (fuel : Option Nat) (now : Nat) :
    Bool × MMSt :=
  if s.mode_switching_active then (false, s)
  else if mode = s.current_mode then (false, s)
  else switchToModeGo s mode fuel now

theorem execOp_preserves (s : MMSt) (now : Nat) (op : MOp) :
    (execOp s now op).current_mode = s.current_mode ∧
    (execOp s now op).state_backup = s.state_backup := by
  cases op
  all_goals exact ⟨rfl, rfl⟩

theorem runOps_preserves (now : Nat) :
    ∀ (ops : List MOp) (k : Nat) (s : MMSt),
      (runOps now s ops k).2.current_mode = s.current_mode ∧
      (runOps now s ops k).2.state_backup = s.state_backup := by
  intro ops
  induction ops with
  | nil => intro k s; exact ⟨rfl, rfl⟩
  | cons op rest ih =>
    intro k s
    cases k with
    | zero => exact ⟨rfl, rfl⟩
    | succ k =>
      have h := ih k (execOp s now op)
      have hop := execOp_preserves s now op
      exact ⟨h.1.trans hop.1, h.2.trans hop.2⟩

theorem runOps_throws (now : Nat) :
    ∀ (ops : List MOp) (k : Nat) (s : MMSt), k < ops.length →
      (runOps now s ops k).1 = true := by
  intro ops
  induction ops with
  | nil => intro k s hk; simp at hk
  | cons op rest ih =>
    intro k s hk
    cases k with
    | zero => rfl
    | succ k => exact ih k (execOp s now op) (by simpa using hk)

theorem restoreSystemState_current_mode (t : MMSt) (now : Nat) :
    (restoreSystemState t now).current_mode = t.current_mode := by
  unfold restoreSystemState
  split <;> rfl

theorem restoreSystemState_fields (t : MMSt) (now : Nat)
    (hv : t.state_backup.is_valid = true) :
    (restoreSystemState t now).sched_algorithm =
      t.state_backup.scheduler_algorithm ∧
    (restoreSystemState t now).governor =
      (if t.state_backup.cpu_governor ≠ "" then t.state_backup.cpu_governor
       else t.governor) ∧
    (restoreSystemState t now).state_backup.is_valid = false := by
  unfold restoreSystemState
  rw [if_neg (by simp [hv])]
  exact ⟨rfl, rfl, rfl⟩

/-- C2 (amended): when the apply step of a mode switch raises an exception
(injected after `k < |ops|` actions), the restore of the state backup runs and
`switchToMode` returns failure: the active mode keeps its pre-call value, the
switching flag is cleared, the scheduler algorithm is restored from the
backup, the governor is restored whenever its pre-call read was non-empty, and
the backup is consumed.  Host changes made by the partial apply to pids
outside the backup — priorities of non-managed processes, suspensions issued
by the apply — are not rolled back (see `c2_rollback_counterexample`). -/
theorem c2_switch_exception_rollback
    (s : MMSt) (mode : SystemMode) (k now : Nat)
    (hsw : s.mode_switching_active = false)
    (hmode : ¬ mode = s.current_mode)
    (hk : k < (appleModeConfigurationOps (getModeConfiguration mode) s.pm).length) :
    (switchToMode s mode (some k) now).1 = false ∧
    (switchToMode s mode (some k) now).2.current_mode = s.current_mode ∧
    (switchToMode s mode (some k) now).2.mode_switching_active = false ∧
    (switchToMode s mode (some k) now).2.sched_algorithm = s.sched_algorithm ∧
    (s.governor ≠ "" →
       (switchToMode s mode (some k) now).2.governor = s.governor) ∧
    (switchToMode s mode (some k) now).2.state_backup.is_valid = false := by
  have hsw' : ¬ s.mode_switching_active = true := by simp [hsw]
  unfold switchToMode
  rw [if_neg hsw', if_neg hmode]
  unfold switchToModeGo
  dsimp only
  have hthrow : (runOps now
      (backupCurrentState { s with mode_switching_active := true })
      (appleModeConfigurationOps (getModeConfiguration mode)
        (backupCurrentState { s with mode_switching_active := true }).pm)
      k).1 = true :=
    runOps_throws now _ k _ hk
  rw [if_pos hthrow]
  have hpres := runOps_preserves now
    (appleModeConfigurationOps (getModeConfiguration mode)
      (backupCurrentState { s with mode_switching_active := true }).pm)
    k (backupCurrentState { s with mode_switching_active := true })
  have hv : (runOps now
      (backupCurrentState { s with mode_switching_active := true })
      (appleModeConfigurationOps (getModeConfiguration mode)
        (backupCurrentState { s with mode_switching_active := true }).pm)
      k).2.state_backup.is_valid = true := by
    rw [hpres.2]
    rfl
  have hrf := restoreSystemState_fields _ now hv
  refine ⟨rfl, ?_, rfl, ?_, ?_, hrf.2.2⟩
  · exact (restoreSystemState_current_mode _ now).trans hpres.1
  · rw [hrf.1, hpres.2]
    rfl
  · intro hg
    rw [hrf.2.1, hpres.2]
    exact if_pos hg

/-- C8: a switch requested while another is in flight, or to the already
active mode, returns failure with the entire state unchanged; consequently
after `switch(m)` succeeds, a second `switch(m)` returns failure and leaves
the state unchanged. -/
theorem c8_switch_same_mode_rejected
    (s : MMSt) (m : SystemMode) (fuel fuel' : Option Nat) (now now' : Nat) :
    (s.mode_switching_active = true ∨ m = s.current_mode →
       switchToMode s m fuel now = (false, s)) ∧
    ((switchToMode s m fuel now).1 = true →
       switchToMode (switchToMode s m fuel now).2 m fuel' now' =
         (false, (switchToMode s m fuel now).2)) := by
  constructor
  · intro h
    unfold switchToMode
    by_cases h1 : s.mode_switching_active = true
    · rw [if_pos h1]
    · rcases h with h | h
      · exact absurd h h1
      · rw [if_neg h1, if_pos h]
  · intro h
    have hsucc : (switchToMode s m fuel now).2.current_mode = m ∧
        (switchToMode s m fuel now).2.mode_switching_active = false := by
      unfold switchToMode at h ⊢
      by_cases h1 : s.mode_switching_active = true
      · rw [if_pos h1] at h
        simp at h
      · rw [if_neg h1] at h ⊢
        by_cases h2 : m = s.current_mode
        · rw [if_pos h2] at h
          simp at h
        · rw [if_neg h2] at h ⊢
          unfold switchToModeGo at h ⊢
          dsimp only at h ⊢
          split at h
          next hcond =>
            simp at h
          next hcond =>
            rw [if_neg hcond]
            exact ⟨rfl, rfl⟩
    obtain ⟨hcm, hsw2⟩ := hsucc
    generalize hres : (switchToMode s m fuel now).2 = t at hcm hsw2 ⊢
    unfold switchToMode
    rw [if_neg (show ¬ t.mode_switching_active = true by rw [hsw2]; simp),
      if_pos hcm.symm]

/-- Fixture: a non-managed Steam game process (matches the Gaming
high-priority name list), pre-call host nice 0. -/
def steamProc : Proc :=
  { pid := 2, name := "steam", rss_kb := 1000, hostNice := 0,
    hostRun := HostRun.running, perm := true, diesOnTerm := true,
    sigDeliveryFails := false, managed := none }

/-- Fixture: a managed snapd background process (matches the Gaming suspend
list), running before the switch. -/
def snapdProc : Proc :=
  { pid := 3, name := "snapd", rss_kb := 300, hostNice := 0,
    hostRun := HostRun.running, perm := true, diesOnTerm := true,
    sigDeliveryFails := false,
    managed := some { original_priority := 0, current_priority := 0,
                      current_state := PState.RUNNING, last_action_time := 0,
                      is_critical := false, category := "user" } }

/-- Fixture: ModeManager state in Balanced mode over the two processes. -/
def balancedSt : MMSt :=
  { pm := { procs := [steamProc, snapdProc], total_terminated := 0,
            total_suspended := 0, sigTrace := [], niceTrace := [] }
    current_mode := SystemMode.BALANCED
    previous_mode := SystemMode.BALANCED
    mode_switching_active := false
    sched_algorithm := SchedulingAlgorithm.PRIORITY_BASED
    sched_time_slice := 100
    sched_boosting := false
    mem_strategy := MemoryOptimizationStrategy.BALANCED
    mem_auto_opt := false
    mem_low_threshold := 80
    mem_swap := true
    governor := "ondemand"
    turbo := false
    brightness := 100
    state_backup := { is_valid := false
                      scheduler_algorithm := SchedulingAlgorithm.PRIORITY_BASED
                      cpu_governor := ""
                      process_priorities := []
                      suspended_processes := []
                      memory_strategy := MemoryOptimizationStrategy.BALANCED } }

/-- C2 counterexample: switching Balanced→Gaming over `balancedSt` with the
exception injected at the governor action (after 9 of the 11 apply actions,
i.e. after the priority and suspension actions): the switch fails and the
mode is unchanged, but steam — host nice 0 pre-call — is left at the Gaming
high priority −10, and snapd — Running pre-call — is left host-stopped with
its entry `SUSPENDED`, refuting "every pid's priority equals its pre-call
priority" and "every pid that was Running pre-call is Running or dead". -/
theorem c2_rollback_counterexample :
    (switchToMode balancedSt SystemMode.GAMING (some 9) 1).1 = false ∧
    (switchToMode balancedSt SystemMode.GAMING (some 9) 1).2.current_mode =
      SystemMode.BALANCED ∧
    steamProc.hostNice = 0 ∧ snapdProc.hostRun = HostRun.running ∧
    (∃ p, findProc (switchToMode balancedSt SystemMode.GAMING (some 9) 1).2.pm 2 =
       some p ∧ p.hostNice = -10) ∧
    (∃ p, findProc (switchToMode balancedSt SystemMode.GAMING (some 9) 1).2.pm 3 =
       some p ∧ p.hostRun = HostRun.stopped ∧
       ∃ m', p.managed = some m' ∧ m'.current_state = PState.SUSPENDED) := by
  exact ⟨rfl, rfl, rfl, rfl, ⟨_, rfl, rfl⟩, ⟨_, rfl, rfl, ⟨_, rfl, rfl⟩⟩⟩

/-- Witness for `c2_switch_exception_rollback` at `balancedSt` with the
exception injected at the governor action. -/
theorem c2_switch_exception_rollback_witness :
    (switchToMode balancedSt SystemMode.GAMING (some 9) 1).1 = false ∧
    (switchToMode balancedSt SystemMode.GAMING (some 9) 1).2.current_mode =
      balancedSt.current_mode ∧
    (switchToMode balancedSt SystemMode.GAMING (some 9) 1).2.mode_switching_active
      = false ∧
    (switchToMode balancedSt SystemMode.GAMING (some 9) 1).2.sched_algorithm =
      balancedSt.sched_algorithm ∧
    (balancedSt.governor ≠ "" →
       (switchToMode balancedSt SystemMode.GAMING (some 9) 1).2.governor =
         balancedSt.governor) ∧
    (switchToMode balancedSt SystemMode.GAMING (some 9) 1).2.state_backup.is_valid
      = false :=
  c2_switch_exception_rollback balancedSt SystemMode.GAMING 9 1 rfl
    (by decide) (by decide)

/-! ## Scheduler (src/unnamed/part_010, Scheduler.cpp)

The header declaring the containers is absent from the sources; per the spec,
`scheduled_processes_` is a pid-keyed map iterated in ascending pid order
("ties broken by the smallest pid"), embedded as a pid-sorted list, and
`multilevel_queues_` is a vector of `max_queue_levels_` deques. -/

/-- `ProcessClass`. -/
inductive ProcessClass where
  | INTERACTIVE
  | BATCH
  | SYSTEM
  | REAL_TIME
  | IDLE
deriving Repr, DecidableEq

/-- The `ScheduledProcess` fields the selection paths read (times in
milliseconds on the steady clock). -/
structure ScheduledProcess where
  pid : Nat
  base_priority : Int
  process_class : ProcessClass
  last_scheduled : Nat
  schedule_count : Nat
  queue_level : Nat
deriving Repr, DecidableEq

/-- `starvation_threshold_` (5000 ms). -/
def starvation_threshold_ms : Nat := 5000

/-- The monitor's view as the scheduler reads it: `mon pid = some c` when the
pid is in the last poll with `cpu_usage = c`, `none` when it is gone (the
absent-pid record carries `cpu_usage = 0`). -/
def monCpu (mon : Nat → Option ℚ) (pid : Nat) : ℚ :=
  (mon pid).getD 0

/-- `Scheduler::calculateDynamicPriority`: base priority, `+5` for an
interactive class, `−3` when the monitor shows over 80% CPU, `+10` when the
wait since `last_scheduled` exceeds the starvation threshold. -/
def calculateDynamicPriority (mon : Nat → Option ℚ) (now : Nat)
    (process : ScheduledProcess) : Int :=
  let priority := process.base_priority
  let priority := if process.process_class = ProcessClass.INTERACTIVE then
                    priority + 5 else priority
  let priority := if monCpu mon process.pid > 80 then priority - 3 else priority
  if now - process.last_scheduled > starvation_threshold_ms then priority + 10
  else priority

/-- The loop body of `Scheduler::getNextPriorityProcess`: keep the first
strictly-greater dynamic priority among the running pids (the source compares
against an accumulator initialised to `INT_MIN`; the embedding's `none`
accumulator plays that role). -/
def getNextPriorityProcessAux (mon : Nat → Option ℚ) (now : Nat) :
    Option (ScheduledProcess × Int) → List ScheduledProcess →
    Option (ScheduledProcess × Int)
  | best, [] => best
  | best, p :: rest =>
    if (mon p.pid).isSome then
      let priority := calculateDynamicPriority mon now p
      let best' :=
        match best with
        | none => some (p, priority)
        | some (b, bprio) =>
          if priority > bprio then some (p, priority) else some (b, bprio)
      getNextPriorityProcessAux mon now best' rest
    else getNextPriorityProcessAux mon now best rest

/-- `Scheduler::getNextPriorityProcess`. -/
def getNextPriorityProcess (tbl : List ScheduledProcess)
    (mon : Nat → Option ℚ) (now : Nat) : Option ScheduledProcess :=
  if tbl.isEmpty then none
  else (getNextPriorityProcessAux mon now none tbl).map (fun r => r.1)

theorem getNextPriorityProcessAux_spec (mon : Nat → Option ℚ) (now : Nat) :
    ∀ (l : List ScheduledProcess) (b : ScheduledProcess),
      (∀ p ∈ l, (mon p.pid).isSome = true) →
      l.Pairwise (fun a c => a.pid < c.pid) →
      (∀ p ∈ l, b.pid < p.pid) →
      ∃ b', getNextPriorityProcessAux mon now
          (some (b, calculateDynamicPriority mon now b)) l =
          some (b', calculateDynamicPriority mon now b') ∧
        (b' = b ∨ b' ∈ l) ∧
        calculateDynamicPriority mon now b ≤ calculateDynamicPriority mon now b' ∧
        (∀ q ∈ l, calculateDynamicPriority mon now q ≤
           calculateDynamicPriority mon now b') ∧
        (calculateDynamicPriority mon now b =
           calculateDynamicPriority mon now b' → b' = b) ∧
        (∀ q ∈ l, calculateDynamicPriority mon now q =
           calculateDynamicPriority mon now b' → b'.pid ≤ q.pid) := by
  intro l
  induction l with
  | nil =>
    intro b _ _ _
    exact ⟨b, rfl, Or.inl rfl, le_refl _, by simp, fun _ => rfl, by simp⟩
  | cons p rest ih =>
    intro b hrun hsort hlt
    have hp : (mon p.pid).isSome = true := hrun p (by simp)
    have hrest : ∀ q ∈ rest, (mon q.pid).isSome = true :=
      fun q hq => hrun q (by simp [hq])
    have hsort' : rest.Pairwise (fun a c => a.pid < c.pid) :=
      (List.pairwise_cons.mp hsort).2
    have hplt : ∀ q ∈ rest, p.pid < q.pid := (List.pairwise_cons.mp hsort).1
    unfold getNextPriorityProcessAux
    rw [if_pos hp]
    dsimp only
    by_cases hgt : calculateDynamicPriority mon now p >
        calculateDynamicPriority mon now b
    · rw [if_pos hgt]
      obtain ⟨b', heq, hmem, hble, hmax, htie, htiepid⟩ := ih p hrest hsort' hplt
      refine ⟨b', heq, ?_, ?_, ?_, ?_, ?_⟩
      · rcases hmem with hmm | hmm
        · exact Or.inr (List.mem_cons.mpr (Or.inl hmm))
        · exact Or.inr (List.mem_cons.mpr (Or.inr hmm))
      · exact le_of_lt (lt_of_lt_of_le hgt hble)
      · intro q hq
        rcases List.mem_cons.mp hq with hqq | hqq
        · subst hqq
          exact hble
        · exact hmax q hqq
      · intro habs
        exact absurd (lt_of_lt_of_le hgt hble)
          (by rw [← habs]; exact lt_irrefl _)
      · intro q hq htq
        rcases List.mem_cons.mp hq with hqq | hqq
        · subst hqq
          have hbq : b' = q := htie htq
          rw [hbq]
        · exact htiepid q hqq htq
    · rw [if_neg hgt]
      push_neg at hgt
      have hblt : ∀ q ∈ rest, b.pid < q.pid :=
        fun q hq => lt_trans (hlt p (by simp)) (hplt q hq)
      obtain ⟨b', heq, hmem, hble, hmax, htie, htiepid⟩ := ih b hrest hsort' hblt
      refine ⟨b', heq, ?_, hble, ?_, htie, ?_⟩
      · rcases hmem with hmm | hmm
        · exact Or.inl hmm
        · exact Or.inr (List.mem_cons.mpr (Or.inr hmm))
      · intro q hq
        rcases List.mem_cons.mp hq with hqq | hqq
        · subst hqq
          exact le_trans hgt hble
        · exact hmax q hqq
      · intro q hq htq
        rcases List.mem_cons.mp hq with hqq | hqq
        · subst hqq
          have hqb : calculateDynamicPriority mon now b =
              calculateDynamicPriority mon now b' :=
            le_antisymm hble (htq ▸ hgt)
          have hb : b' = b := htie hqb
          rw [hb]
          exact le_of_lt (hlt q (by simp))
        · exact htiepid q hqq htq

/-- C5: under PriorityBased selection over a non-empty, pid-sorted table of
running processes, the selected process maximises the dynamic priority with
ties broken by the smallest pid, and the dynamic priority is the base
priority `+5` for an Interactive class, `−3` when the monitor's CPU figure
exceeds 80, `+10` when the wait since the last scheduling exceeds the
starvation threshold. -/
theorem c5_priority_based_argmax (tbl : List ScheduledProcess)
    (mon : Nat → Option ℚ) (now : Nat)
    (hrun : ∀ p ∈ tbl, (mon p.pid).isSome = true)
    (hsorted : tbl.Pairwise (fun a c => a.pid < c.pid))
    (hne : tbl ≠ []) :
    (∃ best, getNextPriorityProcess tbl mon now = some best ∧ best ∈ tbl ∧
      (∀ q ∈ tbl, calculateDynamicPriority mon now q ≤
         calculateDynamicPriority mon now best) ∧
      (∀ q ∈ tbl, calculateDynamicPriority mon now q =
         calculateDynamicPriority mon now best → best.pid ≤ q.pid)) ∧
    (∀ r : ScheduledProcess, calculateDynamicPriority mon now r =
      r.base_priority
      + (if r.process_class = ProcessClass.INTERACTIVE then 5 else 0)
      - (if monCpu mon r.pid > 80 then 3 else 0)
      + (if now - r.last_scheduled > starvation_threshold_ms then 10 else 0)) := by
  constructor
  · match tbl, hrun, hsorted, hne with
    | p :: rest, hrun, hsorted, _ =>
      have hp : (mon p.pid).isSome = true := hrun p (by simp)
      have hrest : ∀ q ∈ rest, (mon q.pid).isSome = true :=
        fun q hq => hrun q (by simp [hq])
      have hsort' : rest.Pairwise (fun a c => a.pid < c.pid) :=
        (List.pairwise_cons.mp hsorted).2
      have hplt : ∀ q ∈ rest, p.pid < q.pid := (List.pairwise_cons.mp hsorted).1
      obtain ⟨b', heq, hmem, hble, hmax, htie, htiepid⟩ :=
        getNextPriorityProcessAux_spec mon now rest p hrest hsort' hplt
      refine ⟨b', ?_, ?_, ?_, ?_⟩
      · unfold getNextPriorityProcess getNextPriorityProcessAux
        rw [if_neg (by simp)]
        rw [if_pos hp]
        dsimp only
        rw [heq]
        rfl
      · rcases hmem with hmm | hmm
        · exact List.mem_cons.mpr (Or.inl hmm)
        · exact List.mem_cons.mpr (Or.inr hmm)
      · intro q hq
        rcases List.mem_cons.mp hq with hqq | hqq
        · subst hqq
          exact hble
        · exact hmax q hqq
      · intro q hq htq
        rcases List.mem_cons.mp hq with hqq | hqq
        · subst hqq
          rw [htie htq]
        · exact htiepid q hqq htq
  · intro r
    unfold calculateDynamicPriority
    dsimp only
    split_ifs <;> ring

/-- Fixture: a two-process table with a dynamic-priority tie (pid 5 reaches 18
by +5 interactive and +10 starvation on base 3; pid 8 has base 18). -/
def tblC5 : List ScheduledProcess :=
  [{ pid := 5, base_priority := 3, process_class := ProcessClass.INTERACTIVE,
     last_scheduled := 0, schedule_count := 0, queue_level := 0 },
   { pid := 8, base_priority := 18, process_class := ProcessClass.BATCH,
     last_scheduled := 6000, schedule_count := 0, queue_level := 0 }]

/-- Fixture: monitor view for `tblC5` (both pids running at 10% CPU). -/
def monC5 : Nat → Option ℚ := fun pid =>
  if pid == 5 || pid == 8 then some 10 else none

/-- Witness for `c5_priority_based_argmax` on `tblC5` at `now = 6000`. -/
theorem c5_priority_based_argmax_witness :
    (∃ best, getNextPriorityProcess tblC5 monC5 6000 = some best ∧
      best ∈ tblC5 ∧
      (∀ q ∈ tblC5, calculateDynamicPriority monC5 6000 q ≤
         calculateDynamicPriority monC5 6000 best) ∧
      (∀ q ∈ tblC5, calculateDynamicPriority monC5 6000 q =
         calculateDynamicPriority monC5 6000 best → best.pid ≤ q.pid)) ∧
    calculateDynamicPriority monC5 6000
      { pid := 5, base_priority := 3, process_class := ProcessClass.INTERACTIVE,
        last_scheduled := 0, schedule_count := 0, queue_level := 0 } =
      3 + (if ({ pid := 5, base_priority := 3,
                 process_class := ProcessClass.INTERACTIVE, last_scheduled := 0,
                 schedule_count := 0, queue_level := 0 } :
               ScheduledProcess).process_class = ProcessClass.INTERACTIVE
           then 5 else 0)
        - (if monCpu monC5 5 > 80 then 3 else 0)
        + (if 6000 - 0 > starvation_threshold_ms then 10 else 0) :=
  ⟨(c5_priority_based_argmax tblC5 monC5 6000 (by decide) (by decide)
      (by decide)).1,
   (c5_priority_based_argmax tblC5 monC5 6000 (by decide) (by decide)
      (by decide)).2
     { pid := 5, base_priority := 3, process_class := ProcessClass.INTERACTIVE,
       last_scheduled := 0, schedule_count := 0, queue_level := 0 }⟩

/-- `Scheduler::getNextMultilevelProcess`, recursing over the queue vector
with the level cursor (`L` is `max_queue_levels_`; the source's vector always
has length `L`, which the demotion branch relies on: when
`min (level+1) (L-1) ≠ level` the next queue exists).  Pick the front of the
lowest-index non-empty queue; a process scheduled more than `(level+1)×3`
times is demoted to `min (level+1) (L-1)` (its `queue_level` field updated),
otherwise it is pushed back onto its own queue. -/
def getNextMultilevelProcessAux (L : Nat) :
    Nat → List (List ScheduledProcess) →
    Option (ScheduledProcess × List (List ScheduledProcess))
  | _, [] => none
  | level, [] :: rest =>
    (getNextMultilevelProcessAux L (level + 1) rest).map
      (fun r => (r.1, ([] : List ScheduledProcess) :: r.2))
  | level, (next :: queue) :: rest =>
    if next.schedule_count > (level + 1) * 3 then
      let new_level := min (level + 1) (L - 1)
      let next' := { next with queue_level := new_level }
      if new_level = level then
        some (next', (queue ++ [next']) :: rest)
      else
        match rest with
        | q2 :: rest2 => some (next', queue :: (q2 ++ [next']) :: rest2)
        | [] => some (next', (queue ++ [next']) :: rest)
    else
      some (next, (queue ++ [next]) :: rest)

/-- `Scheduler::getNextMultilevelProcess` from level 0. -/
def getNextMultilevelProcess (L : Nat) (qs : List (List ScheduledProcess)) :
    Option (ScheduledProcess × List (List ScheduledProcess)) :=
  getNextMultilevelProcessAux L 0 qs

/-- The `schedulingLoop` increment `next_process->schedule_count++` on the
shared record, applied to the queued copy. -/
def incrementScheduleCount (qs : List (List ScheduledProcess)) (pid : Nat) :
    List (List ScheduledProcess) :=
  qs.map (List.map (fun p =>
    if p.pid == pid then { p with schedule_count := p.schedule_count + 1 }
    else p))

/-- One multilevel scheduling step: select (with requeue/demotion), then
count the scheduling on the selected process. -/
def mlTick (L : Nat) (qs : List (List ScheduledProcess)) :
    Option (Nat × List (List ScheduledProcess)) :=
  (getNextMultilevelProcess L qs).map
    (fun r => (r.1.pid, incrementScheduleCount r.2 r.1.pid))

/-- The `MULTILEVEL_FEEDBACK` arm of `Scheduler::addProcess`: push onto queue
0 and set the level to 0. -/
def mlAddProcess (qs : List (List ScheduledProcess)) (p : ScheduledProcess) :
    List (List ScheduledProcess) :=
  match qs with
  | [] => []
  | q0 :: rest => (q0 ++ [{ p with queue_level := 0 }]) :: rest

theorem getNextMultilevelProcessAux_skip (L : Nat) :
    ∀ (qs₁ : List (List ScheduledProcess)) (level : Nat)
      (rest : List (List ScheduledProcess)),
      (∀ e ∈ qs₁, e = []) →
      getNextMultilevelProcessAux L level (qs₁ ++ rest) =
        (getNextMultilevelProcessAux L (level + qs₁.length) rest).map
          (fun r => (r.1, qs₁ ++ r.2)) := by
  intro qs₁
  induction qs₁ with
  | nil =>
    intro level rest _
    simp only [List.nil_append, List.length_nil, Nat.add_zero]
    cases getNextMultilevelProcessAux L level rest <;> rfl
  | cons e qs₁ ih =>
    intro level rest hempty
    have he : e = [] := hempty e (by simp)
    subst he
    show getNextMultilevelProcessAux L level ([] :: (qs₁ ++ rest)) = _
    rw [getNextMultilevelProcessAux]
    rw [ih (level + 1) rest (fun x hx => hempty x (by simp [hx]))]
    rw [Option.map_map]
    have harith : level + 1 + qs₁.length = level + (qs₁.length + 1) := by omega
    rw [harith]
    rfl

/-- A run of queues that are all empty flattens to nothing. -/
theorem flatten_of_empties {qs : List (List ScheduledProcess)}
    (h : ∀ e ∈ qs, e = []) : qs.flatten = [] :=
  List.flatten_eq_nil_iff.mpr h

/-- Incrementing the selected pid's count acts pointwise on the flattened
queue contents. -/
theorem flatten_incrementScheduleCount (qs : List (List ScheduledProcess))
    (pid : Nat) :
    (incrementScheduleCount qs pid).flatten =
      qs.flatten.map (fun r =>
        if r.pid == pid then { r with schedule_count := r.schedule_count + 1 }
        else r) :=
  (List.map_flatten _ qs).symm

/-- Every process other than the selected pid is untouched by the
schedule-count increment. -/
theorem increment_preserves (X : List (List ScheduledProcess)) (pid : Nat)
    (r : ScheduledProcess) (hr : r ∈ X.flatten) (hrne : r.pid ≠ pid) :
    ∃ r' ∈ (incrementScheduleCount X pid).flatten,
      r'.pid = r.pid ∧ r'.queue_level = r.queue_level ∧
      r'.schedule_count = r.schedule_count := by
  refine ⟨r, ?_, rfl, rfl, rfl⟩
  rw [flatten_incrementScheduleCount]
  refine List.mem_map.mpr ⟨r, hr, ?_⟩
  have hne' : ¬ ((r.pid == pid) = true) := by simp [hrne]
  rw [if_neg hne']

/-- The selected process reappears with its count bumped by one. -/
theorem increment_selected_mem (X : List (List ScheduledProcess))
    (sel : ScheduledProcess) (hsel : sel ∈ X.flatten) :
    { sel with schedule_count := sel.schedule_count + 1 } ∈
      (incrementScheduleCount X sel.pid).flatten := by
  rw [flatten_incrementScheduleCount]
  refine List.mem_map.mpr ⟨sel, hsel, ?_⟩
  rw [if_pos (beq_self_eq_true sel.pid)]

/-- Unfolding the head queue: a process at or below its scheduling budget is
requeued on its own level. -/
theorem getNextMultilevelProcessAux_stay (L level : Nat)
    (next : ScheduledProcess) (queue : List ScheduledProcess)
    (rest : List (List ScheduledProcess))
    (h : ¬ next.schedule_count > (level + 1) * 3) :
    getNextMultilevelProcessAux L level ((next :: queue) :: rest) =
      some (next, (queue ++ [next]) :: rest) := by
  rw [getNextMultilevelProcessAux, if_neg h]

/-- Unfolding the head queue: demotion capped back to the same level. -/
theorem getNextMultilevelProcessAux_demote_last (L level : Nat)
    (next : ScheduledProcess) (queue : List ScheduledProcess)
    (rest : List (List ScheduledProcess))
    (h : next.schedule_count > (level + 1) * 3)
    (hm : min (level + 1) (L - 1) = level) :
    getNextMultilevelProcessAux L level ((next :: queue) :: rest) =
      some ({ next with queue_level := level },
            (queue ++ [{ next with queue_level := level }]) :: rest) := by
  rw [getNextMultilevelProcessAux, if_pos h]
  dsimp only
  rw [hm, if_pos rfl]

/-- Unfolding the head queue: genuine demotion into the next queue. -/
theorem getNextMultilevelProcessAux_demote_down (L level : Nat)
    (next : ScheduledProcess) (queue q2 : List ScheduledProcess)
    (rest2 : List (List ScheduledProcess))
    (h : next.schedule_count > (level + 1) * 3)
    (hm : ¬ min (level + 1) (L - 1) = level) :
    getNextMultilevelProcessAux L level ((next :: queue) :: q2 :: rest2) =
      some ({ next with queue_level := min (level + 1) (L - 1) },
            queue ::
              (q2 ++ [{ next with queue_level := min (level + 1) (L - 1) }])
              :: rest2) := by
  rw [getNextMultilevelProcessAux, if_pos h]
  dsimp only
  rw [if_neg hm]

/-- **C6.** Under `MULTILEVEL_FEEDBACK` with `L` queues, selection takes the
front of the lowest-index non-empty queue (here: queue `qs₁.length`, after the
run of empty queues `qs₁`); a fresh process enters at level 0
(`mlAddProcess` pushes onto queue 0 with `queue_level := 0`); after the
selected process has been scheduled more than `(level+1)×3` times it is
demoted to `level+1` capped at `L−1`, otherwise it keeps its level; its queue
level never decreases and never exceeds `L−1`; and every other process keeps
its level and count. -/
theorem c6_multilevel_feedback
    (L : Nat) (qs qs₁ qs₂ : List (List ScheduledProcess))
    (p : ScheduledProcess) (q : List ScheduledProcess)
    (hqs : qs = qs₁ ++ (p :: q) :: qs₂)
    (hempty : ∀ e ∈ qs₁, e = [])
    (hlevel : p.queue_level = qs₁.length)
    (hL : qs.length = L) :
    (∃ qs',
      mlTick L qs = some (p.pid, qs') ∧
      (∃ p' ∈ qs'.flatten,
        p'.pid = p.pid ∧
        p'.schedule_count = p.schedule_count + 1 ∧
        p'.queue_level =
          (if p.schedule_count > (qs₁.length + 1) * 3 then
            min (qs₁.length + 1) (L - 1) else qs₁.length) ∧
        p.queue_level ≤ p'.queue_level ∧ p'.queue_level ≤ L - 1) ∧
      (∀ r ∈ qs.flatten, r.pid ≠ p.pid →
        ∃ r' ∈ qs'.flatten, r'.pid = r.pid ∧ r'.queue_level = r.queue_level ∧
          r'.schedule_count = r.schedule_count)) ∧
    (∀ (q0 : List ScheduledProcess) (rest : List (List ScheduledProcess))
        (pnew : ScheduledProcess),
      mlAddProcess (q0 :: rest) pnew =
        (q0 ++ [{ pnew with queue_level := 0 }]) :: rest) := by
  subst hqs
  refine ⟨?_, fun q0 rest pnew => rfl⟩
  have hlen : qs₁.length + 1 + qs₂.length = L := by
    simp only [List.length_append, List.length_cons] at hL
    omega
  have hskip :=
    getNextMultilevelProcessAux_skip L qs₁ 0 ((p :: q) :: qs₂) hempty
  simp only [Nat.zero_add] at hskip
  by_cases hc : p.schedule_count > (qs₁.length + 1) * 3
  · by_cases hm : min (qs₁.length + 1) (L - 1) = qs₁.length
    · -- demotion capped back to the same (last) level
      have haux :=
        getNextMultilevelProcessAux_demote_last L qs₁.length p q qs₂ hc hm
      refine ⟨incrementScheduleCount
          (qs₁ ++ (q ++ [{ p with queue_level := qs₁.length }]) :: qs₂) p.pid,
        ?_, ?_, ?_⟩
      · show (getNextMultilevelProcessAux L 0
            (qs₁ ++ (p :: q) :: qs₂)).map
            (fun r => (r.1.pid, incrementScheduleCount r.2 r.1.pid)) = _
        rw [hskip, haux]
        rfl
      · have hflatX :
            (qs₁ ++ (q ++ [{ p with queue_level := qs₁.length }]) :: qs₂).flatten
              = q ++ { p with queue_level := qs₁.length } :: qs₂.flatten := by
          simp [List.flatten_append, List.flatten_cons,
            flatten_of_empties hempty]
        have hpdmem : ({ p with queue_level := qs₁.length } : ScheduledProcess)
            ∈ (qs₁ ++ (q ++ [{ p with queue_level := qs₁.length }]) :: qs₂).flatten := by
          rw [hflatX]
          exact List.mem_append_right _ (List.mem_cons_self _ _)
        refine ⟨{ p with queue_level := qs₁.length, schedule_count := p.schedule_count + 1 }, ?_, rfl, rfl, ?_, ?_, ?_⟩
        · exact increment_selected_mem _ _ hpdmem
        · show qs₁.length = _
          rw [if_pos hc]
          exact hm.symm
        · show p.queue_level ≤ qs₁.length
          exact hlevel.le
        · show qs₁.length ≤ L - 1
          omega
      · intro r hr hrne
        have hflatqs : (qs₁ ++ (p :: q) :: qs₂).flatten
            = p :: (q ++ qs₂.flatten) := by
          simp [List.flatten_append, List.flatten_cons,
            flatten_of_empties hempty]
        rw [hflatqs] at hr
        rcases List.mem_cons.mp hr with hEq | hr'
        · exact absurd (congrArg ScheduledProcess.pid hEq) hrne
        · refine increment_preserves _ p.pid r ?_ hrne
          have hflatX :
              (qs₁ ++ (q ++ [{ p with queue_level := qs₁.length }]) :: qs₂).flatten
                = q ++ { p with queue_level := qs₁.length } :: qs₂.flatten := by
            simp [List.flatten_append, List.flatten_cons,
              flatten_of_empties hempty]
          rw [hflatX]
          rcases List.mem_append.mp hr' with h1 | h2
          · exact List.mem_append_left _ h1
          · exact List.mem_append_right _ (List.mem_cons_of_mem _ h2)
    · -- genuine demotion into the next queue, which must exist
      cases qs₂ with
      | nil =>
        exfalso
        apply hm
        simp only [List.length_nil] at hlen
        omega
      | cons q2 qs₂' =>
        have haux :=
          getNextMultilevelProcessAux_demote_down L qs₁.length p q q2 qs₂' hc hm
        refine ⟨incrementScheduleCount
            (qs₁ ++ q ::
              (q2 ++ [{ p with queue_level := min (qs₁.length + 1) (L - 1) }])
              :: qs₂') p.pid,
          ?_, ?_, ?_⟩
        · show (getNextMultilevelProcessAux L 0
              (qs₁ ++ (p :: q) :: q2 :: qs₂')).map
              (fun r => (r.1.pid, incrementScheduleCount r.2 r.1.pid)) = _
          rw [hskip, haux]
          rfl
        · have hflatX :
              (qs₁ ++ q ::
                (q2 ++ [{ p with queue_level := min (qs₁.length + 1) (L - 1) }])
                :: qs₂').flatten
                = q ++ (q2 ++
                    { p with queue_level := min (qs₁.length + 1) (L - 1) }
                    :: qs₂'.flatten) := by
            simp [List.flatten_append, List.flatten_cons,
              flatten_of_empties hempty]
          have hpdmem :
              ({ p with queue_level := min (qs₁.length + 1) (L - 1) } :
                ScheduledProcess)
              ∈ (qs₁ ++ q ::
                  (q2 ++ [{ p with queue_level := min (qs₁.length + 1) (L - 1) }])
                  :: qs₂').flatten := by
            rw [hflatX]
            exact List.mem_append_right _
              (List.mem_append_right _ (List.mem_cons_self _ _))
          have hlen' : qs₁.length + 1 + (qs₂'.length + 1) = L := by
            simp only [List.length_cons] at hlen
            omega
          refine ⟨{ p with queue_level := min (qs₁.length + 1) (L - 1), schedule_count := p.schedule_count + 1 }, ?_, rfl, rfl, ?_, ?_, ?_⟩
          · exact increment_selected_mem _ _ hpdmem
          · show min (qs₁.length + 1) (L - 1) = _
            rw [if_pos hc]
          · show p.queue_level ≤ min (qs₁.length + 1) (L - 1)
            rw [hlevel]
            omega
          · show min (qs₁.length + 1) (L - 1) ≤ L - 1
            exact Nat.min_le_right _ _
        · intro r hr hrne
          have hflatqs : (qs₁ ++ (p :: q) :: q2 :: qs₂').flatten
              = p :: (q ++ (q2 ++ qs₂'.flatten)) := by
            simp [List.flatten_append, List.flatten_cons,
              flatten_of_empties hempty]
          rw [hflatqs] at hr
          rcases List.mem_cons.mp hr with hEq | hr'
          · exact absurd (congrArg ScheduledProcess.pid hEq) hrne
          · refine increment_preserves _ p.pid r ?_ hrne
            have hflatX :
                (qs₁ ++ q ::
                  (q2 ++ [{ p with queue_level := min (qs₁.length + 1) (L - 1) }])
                  :: qs₂').flatten
                  = q ++ (q2 ++
                      { p with queue_level := min (qs₁.length + 1) (L - 1) }
                      :: qs₂'.flatten) := by
              simp [List.flatten_append, List.flatten_cons,
                flatten_of_empties hempty]
            rw [hflatX]
            rcases List.mem_append.mp hr' with h1 | h23
            · exact List.mem_append_left _ h1
            · rcases List.mem_append.mp h23 with h2 | h3
              · exact List.mem_append_right _ (List.mem_append_left _ h2)
              · exact List.mem_append_right _
                  (List.mem_append_right _ (List.mem_cons_of_mem _ h3))
  · -- budget not exceeded: requeued on the same level
    have haux := getNextMultilevelProcessAux_stay L qs₁.length p q qs₂ hc
    refine ⟨incrementScheduleCount (qs₁ ++ (q ++ [p]) :: qs₂) p.pid,
      ?_, ?_, ?_⟩
    · show (getNextMultilevelProcessAux L 0
          (qs₁ ++ (p :: q) :: qs₂)).map
          (fun r => (r.1.pid, incrementScheduleCount r.2 r.1.pid)) = _
      rw [hskip, haux]
      rfl
    · have hflatX : (qs₁ ++ (q ++ [p]) :: qs₂).flatten
          = q ++ p :: qs₂.flatten := by
        simp [List.flatten_append, List.flatten_cons,
          flatten_of_empties hempty]
      have hpmem : p ∈ (qs₁ ++ (q ++ [p]) :: qs₂).flatten := by
        rw [hflatX]
        exact List.mem_append_right _ (List.mem_cons_self _ _)
      refine ⟨{ p with schedule_count := p.schedule_count + 1 },
        ?_, rfl, rfl, ?_, ?_, ?_⟩
      · exact increment_selected_mem _ _ hpmem
      · show p.queue_level = _
        rw [if_neg hc]
        exact hlevel
      · exact le_refl _
      · show p.queue_level ≤ L - 1
        rw [hlevel]
        omega
    · intro r hr hrne
      have hflatqs : (qs₁ ++ (p :: q) :: qs₂).flatten
          = p :: (q ++ qs₂.flatten) := by
        simp [List.flatten_append, List.flatten_cons,
          flatten_of_empties hempty]
      rw [hflatqs] at hr
      rcases List.mem_cons.mp hr with hEq | hr'
      · exact absurd (congrArg ScheduledProcess.pid hEq) hrne
      · refine increment_preserves _ p.pid r ?_ hrne
        have hflatX : (qs₁ ++ (q ++ [p]) :: qs₂).flatten
            = q ++ p :: qs₂.flatten := by
          simp [List.flatten_append, List.flatten_cons,
            flatten_of_empties hempty]
        rw [hflatX]
        rcases List.mem_append.mp hr' with h1 | h2
        · exact List.mem_append_left _ h1
        · exact List.mem_append_right _ (List.mem_cons_of_mem _ h2)

/-- A lone process on queue 0 that has already been scheduled 4 times
(over the level-0 budget of 3). -/
def pC6 : ScheduledProcess :=
  { pid := 1, base_priority := 0, process_class := ProcessClass.BATCH,
    last_scheduled := 0, schedule_count := 4, queue_level := 0 }

theorem c6_multilevel_feedback_witness :
    ∃ qs', mlTick 2 [[pC6], []] = some (1, qs') ∧
      ∃ p' ∈ qs'.flatten,
        p'.pid = 1 ∧ p'.schedule_count = 5 ∧ p'.queue_level = 1 := by
  obtain ⟨⟨qs', h1, ⟨p', hp, hpid, hcnt, hql, _, _⟩, _⟩, _⟩ :=
    c6_multilevel_feedback 2 [[pC6], []] [] [[]] pC6 [] rfl
      (fun e h => nomatch h) rfl rfl
  refine ⟨qs', h1, p', hp, ?_, ?_, ?_⟩
  · rw [hpid]
    rfl
  · rw [hcnt]
    rfl
  · rw [hql]
    decide

/-! ## C3: critical processes are never suspended, terminated or re-niced -/

/-- Well-formedness of a critical process's slot: its host nice value is a
legal nice, and any managed entry still records the untouched priority (both
recorded priorities equal the host nice) and the `RUNNING` state. -/
def entryOk (p : Proc) : Prop :=
  -20 ≤ p.hostNice ∧ p.hostNice ≤ 19 ∧
  ∀ m, p.managed = some m →
    m.current_priority = p.hostNice ∧ m.original_priority = p.hostNice ∧
    m.current_state = PState.RUNNING

/-- The critical-process invariant over a manager state: pids are unique in
the table (one `/proc` slot per pid) and every critical-named process is
well-formed in the sense of `entryOk`. -/
def CritInv (s : PMSt) : Prop :=
  (s.procs.map (·.pid)).Nodup ∧
  ∀ p ∈ s.procs, isProcessCritical p.name = true → entryOk p

/-- One table slot evolving without being suspended, terminated or re-niced:
identity, name and nice value are kept, and the host run state is either
untouched or set to `running` (a continue signal). -/
def procSafe (p q : Proc) : Prop :=
  q.pid = p.pid ∧ q.name = p.name ∧ q.hostNice = p.hostNice ∧
  (q.hostRun = p.hostRun ∨ q.hostRun = HostRun.running)

/-- Between two states, every critical process of the first is still present,
with the same name and nice value, not newly dead and not newly stopped. -/
def critPreserved (s t : PMSt) : Prop :=
  ∀ pid p, findProc s pid = some p → isProcessCritical p.name = true →
    ∃ p', findProc t pid = some p' ∧ p'.name = p.name ∧
      p'.hostNice = p.hostNice ∧
      (p.hostRun ≠ HostRun.dead → p'.hostRun ≠ HostRun.dead) ∧
      (p.hostRun ≠ HostRun.stopped → p'.hostRun ≠ HostRun.stopped)

/-- One operation of the system is critical-safe from `s` to `t`: assuming the
invariant, it is maintained and no critical process is disturbed. -/
def critStep (s t : PMSt) : Prop :=
  CritInv s → CritInv t ∧ critPreserved s t

theorem critPreserved_refl (s : PMSt) : critPreserved s s := by
  intro pid p hf _
  exact ⟨p, hf, rfl, rfl, fun h => h, fun h => h⟩

theorem critPreserved_trans {s t u : PMSt} (h1 : critPreserved s t)
    (h2 : critPreserved t u) : critPreserved s u := by
  intro pid p hf hc
  obtain ⟨p', hf', hn', hv', hd', hs'⟩ := h1 pid p hf hc
  obtain ⟨p'', hf'', hn'', hv'', hd'', hs''⟩ := h2 pid p' hf' (hn' ▸ hc)
  exact ⟨p'', hf'', hn''.trans hn', hv''.trans hv',
    fun h => hd'' (hd' h), fun h => hs'' (hs' h)⟩

theorem critStep_refl (s : PMSt) : critStep s s :=
  fun hinv => ⟨hinv, critPreserved_refl s⟩

theorem critStep_trans {s t u : PMSt} (h1 : critStep s t) (h2 : critStep t u) :
    critStep s u := by
  intro hinv
  obtain ⟨hinv', hp1⟩ := h1 hinv
  obtain ⟨hinv'', hp2⟩ := h2 hinv'
  exact ⟨hinv'', critPreserved_trans hp1 hp2⟩

theorem findProc_congr {s t : PMSt} (h : t.procs = s.procs) (pid : Nat) :
    findProc t pid = findProc s pid := by
  unfold findProc
  rw [h]

theorem monitorGetProcess_congr {s t : PMSt} (h : t.procs = s.procs)
    (pid : Nat) : monitorGetProcess t pid = monitorGetProcess s pid := by
  unfold monitorGetProcess
  rw [h]

theorem CritInv_congr {s t : PMSt} (h : t.procs = s.procs) (hinv : CritInv s) :
    CritInv t := by
  unfold CritInv at hinv ⊢
  rw [h]
  exact hinv

theorem critStep_of_procs_eq {s t : PMSt} (h : t.procs = s.procs) :
    critStep s t := by
  intro hinv
  refine ⟨CritInv_congr h hinv, ?_⟩
  intro pid p hf hc
  exact ⟨p, (findProc_congr h pid).trans hf, rfl, rfl, fun h => h, fun h => h⟩

/-- With unique pids, two table slots holding the same pid coincide. -/
theorem pid_unique {s : PMSt} (hnd : (s.procs.map (·.pid)).Nodup)
    {p q : Proc} (hp : p ∈ s.procs) (hq : q ∈ s.procs) (h : p.pid = q.pid) :
    p = q :=
  List.inj_on_of_nodup_map hnd hp hq h

/-- With unique pids, a monitored pid is exactly what `findProc` sees. -/
theorem findProc_of_monitor {s : PMSt} (hnd : (s.procs.map (·.pid)).Nodup)
    {pid : Nat} {q : Proc} (hm : monitorGetProcess s pid = some q) :
    findProc s pid = some q := by
  obtain ⟨hqmem, hqpid, _⟩ := monitorGetProcess_spec hm
  cases hf : findProc s pid with
  | none =>
    unfold findProc at hf
    exact absurd (by simp [hqpid]) (List.find?_eq_none.mp hf q hqmem)
  | some p =>
    have hpmem : p ∈ s.procs := List.mem_of_find?_eq_some hf
    have hppid : p.pid = pid := by
      have := List.find?_some (p := fun (r : Proc) => r.pid == pid) hf
      simpa using this
    rw [pid_unique hnd hpmem hqmem (hppid.trans hqpid.symm)]

/-- Master lemma: a pointwise table rewrite is a critical-safe step as soon as
it keeps pids and names and treats every well-formed critical slot safely. -/
theorem critStep_map (s : PMSt) (g : Proc → Proc)
    (hpid : ∀ p, (g p).pid = p.pid) (hname : ∀ p, (g p).name = p.name)
    (hsafe : (s.procs.map (·.pid)).Nodup →
      ∀ p ∈ s.procs, isProcessCritical p.name = true → entryOk p →
        procSafe p (g p) ∧ entryOk (g p)) :
    critStep s { s with procs := s.procs.map g } := by
  intro hinv
  obtain ⟨hnd, hok⟩ := hinv
  have hpids : (s.procs.map g).map (·.pid) = s.procs.map (·.pid) := by
    rw [List.map_map]
    exact List.map_congr_left (fun p _ => hpid p)
  constructor
  · constructor
    · show ((s.procs.map g).map (·.pid)).Nodup
      rw [hpids]
      exact hnd
    · intro q hq hcq
      obtain ⟨p, hp, rfl⟩ := List.mem_map.mp hq
      have hcp : isProcessCritical p.name = true := by
        rw [← hname p]
        exact hcq
      exact (hsafe hnd p hp hcp (hok p hp hcp)).2
  · intro pid p hf hc
    have hf' : findProc { s with procs := s.procs.map g } pid = some (g p) := by
      unfold findProc at hf ⊢
      dsimp only
      rw [List.find?_map]
      have hpred : ((fun q => q.pid == pid) ∘ g) =
          (fun (q : Proc) => q.pid == pid) := by
        funext q
        simp only [Function.comp]
        rw [hpid]
      rw [hpred, hf]
      rfl
    have hp : p ∈ s.procs := List.mem_of_find?_eq_some hf
    obtain ⟨hps, _⟩ := hsafe hnd p hp hc (hok p hp hc)
    obtain ⟨_, hn, hv, hr⟩ := hps
    refine ⟨g p, hf', hn, hv, ?_, ?_⟩
    · intro hnd'
      cases hr with
      | inl h => rw [h]; exact hnd'
      | inr h => rw [h]; exact (by decide : HostRun.running ≠ HostRun.dead)
    · intro hns'
      cases hr with
      | inl h => rw [h]; exact hns'
      | inr h => rw [h]; exact (by decide : HostRun.running ≠ HostRun.stopped)

/-- No table slot at this pid has a critical name. -/
def noCritAt (s : PMSt) (pid : Nat) : Prop :=
  ∀ p ∈ s.procs, p.pid = pid → isProcessCritical p.name = false

theorem noCritAt_congr {s t : PMSt} {pid : Nat} (h : t.procs = s.procs)
    (hnc : noCritAt s pid) : noCritAt t pid := by
  unfold noCritAt at hnc ⊢
  rw [h]
  exact hnc

theorem noCritAt_map {s : PMSt} (g : Proc → Proc)
    (hpid : ∀ p, (g p).pid = p.pid) (hname : ∀ p, (g p).name = p.name)
    {pid : Nat} (hnc : noCritAt s pid) :
    noCritAt { s with procs := s.procs.map g } pid := by
  intro q hq hqpid
  obtain ⟨p, hp, rfl⟩ := List.mem_map.mp hq
  rw [hname]
  refine hnc p hp ?_
  rw [← hpid p]
  exact hqpid

theorem noCritAt_updateProc {s : PMSt} {pid : Nat} (pid' : Nat)
    (f : Proc → Proc) (hpid : ∀ p, (f p).pid = p.pid)
    (hname : ∀ p, (f p).name = p.name) (hnc : noCritAt s pid) :
    noCritAt (updateProc s pid' f) pid :=
  noCritAt_map (fun p => if p.pid == pid' then f p else p)
    (fun p => by
      dsimp only
      by_cases h : (p.pid == pid') = true
      · rw [if_pos h]; exact hpid p
      · rw [if_neg h])
    (fun p => by
      dsimp only
      by_cases h : (p.pid == pid') = true
      · rw [if_pos h]; exact hname p
      · rw [if_neg h])
    hnc

/-- Specialisation of `critStep_map` to `updateProc`. -/
theorem critStep_updateProc (s : PMSt) (pid : Nat) (f : Proc → Proc)
    (hpid : ∀ p, (f p).pid = p.pid) (hname : ∀ p, (f p).name = p.name)
    (hsafe : (s.procs.map (·.pid)).Nodup →
      ∀ p ∈ s.procs, p.pid = pid → isProcessCritical p.name = true →
        entryOk p → procSafe p (f p) ∧ entryOk (f p)) :
    critStep s (updateProc s pid f) :=
  critStep_map s (fun p => if p.pid == pid then f p else p)
    (fun p => by
      dsimp only
      by_cases h : (p.pid == pid) = true
      · rw [if_pos h]; exact hpid p
      · rw [if_neg h])
    (fun p => by
      dsimp only
      by_cases h : (p.pid == pid) = true
      · rw [if_pos h]; exact hname p
      · rw [if_neg h])
    (fun hnd p hp hc hok => by
      dsimp only
      by_cases h : (p.pid == pid) = true
      · rw [if_pos h]
        exact hsafe hnd p hp (by simpa using h) hc hok
      · rw [if_neg h]
        exact ⟨⟨rfl, rfl, rfl, Or.inl rfl⟩, hok⟩)

/-- A table update at a pid with no critical slot is always a safe step. -/
theorem critStep_updateProc_nc (s : PMSt) (pid : Nat) (f : Proc → Proc)
    (hpid : ∀ p, (f p).pid = p.pid) (hname : ∀ p, (f p).name = p.name)
    (hnc : noCritAt s pid) : critStep s (updateProc s pid f) :=
  critStep_updateProc s pid f hpid hname (fun _ p hp hpp hc _ =>
    absurd hc (by rw [hnc p hp hpp]; decide))

theorem applySig_name (sig : Sig) (p : Proc) : (applySig sig p).name = p.name := by
  cases sig
  case SIGTERM =>
    simp only [applySig]
    split <;> rfl
  all_goals rfl

theorem applySig_hostNice (sig : Sig) (p : Proc) :
    (applySig sig p).hostNice = p.hostNice := by
  cases sig
  case SIGTERM =>
    simp only [applySig]
    split <;> rfl
  all_goals rfl

theorem applySig_managed2 (sig : Sig) (p : Proc) :
    (applySig sig p).managed = p.managed := by
  cases sig
  case SIGTERM =>
    simp only [applySig]
    split <;> rfl
  all_goals rfl

theorem entryOk_of_eq {p q : Proc} (hv : q.hostNice = p.hostNice)
    (hm : q.managed = p.managed) (h : entryOk p) : entryOk q := by
  obtain ⟨h1, h2, h3⟩ := h
  refine ⟨by rw [hv]; exact h1, by rw [hv]; exact h2, ?_⟩
  intro m hm'
  rw [hm] at hm'
  obtain ⟨a, b, c⟩ := h3 m hm'
  exact ⟨by rw [hv]; exact a, by rw [hv]; exact b, c⟩

/-- The permission probe never changes the process table. -/
theorem canModifyProcess_procs (s : PMSt) (pid : Nat) :
    (canModifyProcess s pid).2.procs = s.procs := by
  unfold canModifyProcess
  split
  · rfl
  · split
    · rfl
    · unfold hasPermission sendSignal
      dsimp only
      split
      · rfl
      · split
        · rw [updateProc_signull]
          rfl
        · rfl

/-- A passing guard means the monitor saw a live, non-critical name at the
pid. -/
theorem canModifyProcess_true {s : PMSt} {pid : Nat}
    (h : (canModifyProcess s pid).1 = true) :
    ∃ info, monitorGetProcess s pid = some info ∧
      isProcessCritical info.name = false := by
  cases hm : monitorGetProcess s pid with
  | none =>
    rw [canModifyProcess_none s pid hm] at h
    simp at h
  | some info =>
    by_cases hc : isProcessCritical info.name = true
    · rw [canModifyProcess_critical s pid info hm hc] at h
      simp at h
    · exact ⟨info, rfl, by simpa using hc⟩

/-- With unique pids, a passing guard leaves no critical slot at the pid. -/
theorem noCritAt_of_guard {s : PMSt} {pid : Nat}
    (hnd : (s.procs.map (·.pid)).Nodup)
    {info : Proc} (hm : monitorGetProcess s pid = some info)
    (hc : isProcessCritical info.name = false) : noCritAt s pid := by
  intro p hp hpp
  obtain ⟨hinfomem, hinfopid, _⟩ := monitorGetProcess_spec hm
  rw [pid_unique hnd hp hinfomem (by rw [hpp, hinfopid])]
  exact hc

theorem critStep_canModifyProcess (s : PMSt) (pid : Nat) :
    critStep s (canModifyProcess s pid).2 :=
  critStep_of_procs_eq (canModifyProcess_procs s pid)

/-- Sending a signal is a critical-safe step whenever the signal could only
keep or un-stop the run state of a critical slot at the pid. -/
theorem critStep_sendSignal (s : PMSt) (pid : Nat) (sig : Sig)
    (hrun : ∀ p ∈ s.procs, p.pid = pid → isProcessCritical p.name = true →
      (applySig sig p).hostRun = p.hostRun ∨
      (applySig sig p).hostRun = HostRun.running) :
    critStep s (sendSignal s pid sig).2 := by
  unfold sendSignal
  dsimp only
  split
  · exact critStep_of_procs_eq rfl
  · split
    · refine critStep_trans
        (critStep_of_procs_eq (t := logSig s pid sig) rfl) ?_
      refine critStep_updateProc _ pid (applySig sig) (applySig_pid sig)
        (applySig_name sig) ?_
      intro hnd p hp hpp hc hok
      refine ⟨⟨applySig_pid sig p, applySig_name sig p,
        applySig_hostNice sig p, hrun p hp hpp hc⟩, ?_⟩
      exact entryOk_of_eq (applySig_hostNice sig p) (applySig_managed2 sig p) hok
    · exact critStep_of_procs_eq rfl

theorem critStep_sendSignal_null (s : PMSt) (pid : Nat) :
    critStep s (sendSignal s pid Sig.SIGNULL).2 :=
  critStep_sendSignal s pid Sig.SIGNULL (fun _ _ _ _ => Or.inl rfl)

theorem critStep_sendSignal_cont (s : PMSt) (pid : Nat) :
    critStep s (sendSignal s pid Sig.SIGCONT).2 :=
  critStep_sendSignal s pid Sig.SIGCONT (fun _ _ _ _ => Or.inr rfl)

theorem critStep_sendSignal_nc (s : PMSt) (pid : Nat) (sig : Sig)
    (hnc : noCritAt s pid) : critStep s (sendSignal s pid sig).2 :=
  critStep_sendSignal s pid sig (fun p hp hpp hc =>
    absurd hc (by rw [hnc p hp hpp]; decide))

/-- Setting a nice value is a critical-safe step whenever, for a critical
slot at the pid, the clamped value is exactly its current nice. -/
theorem critStep_setProcessNiceValue (s : PMSt) (pid : Nat) (v : Int)
    (hval : ∀ p ∈ s.procs, p.pid = pid → isProcessCritical p.name = true →
      entryOk p → max (-20) (min 19 v) = p.hostNice) :
    critStep s (setProcessNiceValue s pid v).2 := by
  unfold setProcessNiceValue
  dsimp only
  split
  · exact critStep_of_procs_eq rfl
  · split
    · refine critStep_trans
        (critStep_of_procs_eq (t := logNice s pid (max (-20) (min 19 v))) rfl) ?_
      refine critStep_updateProc _ pid _ (fun _ => rfl) (fun _ => rfl) ?_
      intro hnd p hp hpp hc hok
      have hv := hval p hp hpp hc hok
      exact ⟨⟨rfl, rfl, hv, Or.inl rfl⟩, entryOk_of_eq hv rfl hok⟩
    · exact critStep_of_procs_eq rfl

theorem critStep_setProcessNiceValue_nc (s : PMSt) (pid : Nat) (v : Int)
    (hnc : noCritAt s pid) : critStep s (setProcessNiceValue s pid v).2 :=
  critStep_setProcessNiceValue s pid v (fun p hp hpp hc _ =>
    absurd hc (by rw [hnc p hp hpp]; decide))

/-- An entry rewrite that keeps pinned priorities and the `RUNNING` state is a
critical-safe step. -/
theorem critStep_updateEntry_safe (s : PMSt) (pid : Nat)
    (g : ManagedEntry → ManagedEntry)
    (hg : ∀ (v : Int) (m : ManagedEntry),
      m.current_priority = v → m.original_priority = v →
      m.current_state = PState.RUNNING →
      (g m).current_priority = v ∧ (g m).original_priority = v ∧
      (g m).current_state = PState.RUNNING) :
    critStep s (updateEntry s pid g) := by
  refine critStep_updateProc s pid _ (fun _ => rfl) (fun _ => rfl) ?_
  intro _ p _ _ _ hok
  refine ⟨⟨rfl, rfl, rfl, Or.inl rfl⟩, ?_⟩
  obtain ⟨h1, h2, h3⟩ := hok
  refine ⟨h1, h2, ?_⟩
  intro m hm
  cases hm0 : p.managed with
  | none =>
    rw [hm0] at hm
    cases hm
  | some m0 =>
    rw [hm0] at hm
    have hgm : g m0 = m := by simpa using hm
    obtain ⟨a, b, c⟩ := h3 m0 hm0
    rw [← hgm]
    exact hg p.hostNice m0 a b c

/-- Common tail of the guarded suspend/terminate operations: mark the entry
(at a pid with no critical slot) and send the signal. -/
theorem critStep_markAndSignal (G : PMSt) (pid : Nat) (sig : Sig)
    (F : ManagedEntry → ManagedEntry) (b : PMSt → PMSt)
    (hb : ∀ t, (b t).procs = t.procs)
    (hnc : noCritAt G pid) (c : Bool) :
    critStep G
      (sendSignal (if c = true then b (updateEntry G pid F) else G) pid sig).2 := by
  by_cases h : c = true
  · rw [if_pos h]
    have h1 : critStep G (b (updateEntry G pid F)) :=
      critStep_trans
        (critStep_updateProc_nc G pid
          (fun p => { p with managed := p.managed.map F })
          (fun _ => rfl) (fun _ => rfl) hnc)
        (critStep_of_procs_eq (hb _))
    have h2 : noCritAt (b (updateEntry G pid F)) pid :=
      noCritAt_congr (hb _)
        (noCritAt_updateProc pid
          (fun p => { p with managed := p.managed.map F })
          (fun _ => rfl) (fun _ => rfl) hnc)
    exact critStep_trans h1 (critStep_sendSignal_nc _ pid sig h2)
  · rw [if_neg h]
    exact critStep_sendSignal_nc G pid sig hnc

theorem critStep_terminateProcess (s : PMSt) (pid now : Nat) :
    critStep s (terminateProcess s pid now).2 := by
  unfold terminateProcess
  dsimp only
  by_cases hg : (canModifyProcess s pid).1 = true
  · simp only [hg, Bool.not_true, Bool.false_eq_true, if_false]
    intro hinv
    obtain ⟨info, hm, hcinfo⟩ := canModifyProcess_true hg
    have hnc2 : noCritAt (canModifyProcess s pid).2 pid :=
      noCritAt_congr (canModifyProcess_procs s pid)
        (noCritAt_of_guard hinv.1 hm hcinfo)
    exact (critStep_trans (critStep_canModifyProcess s pid)
      (critStep_markAndSignal _ pid Sig.SIGTERM _ bumpTerminated
        (fun _ => rfl) hnc2 _)) hinv
  · have hg' : (canModifyProcess s pid).1 = false := by simpa using hg
    rw [if_pos (show (!(canModifyProcess s pid).1) = true by rw [hg']; rfl)]
    exact critStep_canModifyProcess s pid

theorem critStep_pauseProcess (s : PMSt) (pid now : Nat) :
    critStep s (pauseProcess s pid now).2 := by
  unfold pauseProcess
  dsimp only
  by_cases hg : (canModifyProcess s pid).1 = true
  · simp only [hg, Bool.not_true, Bool.false_eq_true, if_false]
    intro hinv
    obtain ⟨info, hm, hcinfo⟩ := canModifyProcess_true hg
    have hnc2 : noCritAt (canModifyProcess s pid).2 pid :=
      noCritAt_congr (canModifyProcess_procs s pid)
        (noCritAt_of_guard hinv.1 hm hcinfo)
    exact (critStep_trans (critStep_canModifyProcess s pid)
      (critStep_markAndSignal _ pid Sig.SIGSTOP _ bumpSuspended
        (fun _ => rfl) hnc2 _)) hinv
  · have hg' : (canModifyProcess s pid).1 = false := by simpa using hg
    rw [if_pos (show (!(canModifyProcess s pid).1) = true by rw [hg']; rfl)]
    exact critStep_canModifyProcess s pid

theorem critStep_setProcessPriority (s : PMSt) (pid : Nat) (priority : Int)
    (now : Nat) : critStep s (setProcessPriority s pid priority now).2 := by
  unfold setProcessPriority
  dsimp only
  by_cases hg : (canModifyProcess s pid).1 = true
  · simp only [hg, Bool.not_true, Bool.false_eq_true, if_false]
    intro hinv
    obtain ⟨info, hm, hcinfo⟩ := canModifyProcess_true hg
    have hnc2 : noCritAt (canModifyProcess s pid).2 pid :=
      noCritAt_congr (canModifyProcess_procs s pid)
        (noCritAt_of_guard hinv.1 hm hcinfo)
    have h1 : critStep (canModifyProcess s pid).2
        (updateEntry (canModifyProcess s pid).2 pid (fun m =>
          { m with current_priority := priority, last_action_time := now })) :=
      critStep_updateProc_nc _ pid _ (fun _ => rfl) (fun _ => rfl) hnc2
    have hnc3 : noCritAt
        (updateEntry (canModifyProcess s pid).2 pid (fun m =>
          { m with current_priority := priority, last_action_time := now })) pid :=
      noCritAt_updateProc pid _ (fun _ => rfl) (fun _ => rfl) hnc2
    exact (critStep_trans (critStep_canModifyProcess s pid)
      (critStep_trans h1
        (critStep_setProcessNiceValue_nc _ pid priority hnc3))) hinv
  · have hg' : (canModifyProcess s pid).1 = false := by simpa using hg
    rw [if_pos (show (!(canModifyProcess s pid).1) = true by rw [hg']; rfl)]
    exact critStep_canModifyProcess s pid

theorem critStep_resumeProcess (s : PMSt) (pid now : Nat) :
    critStep s (resumeProcess s pid now).2 := by
  unfold resumeProcess
  dsimp only
  split
  · split
    · split
      · refine critStep_trans
          (critStep_updateEntry_safe s pid _ ?_) (critStep_sendSignal_cont _ pid)
        intro v m h1 h2 _
        exact ⟨h1, h2, rfl⟩
      · exact critStep_sendSignal_cont s pid
    · exact critStep_sendSignal_cont s pid
  · exact critStep_sendSignal_cont s pid

theorem updateEntry_pids (s : PMSt) (pid : Nat)
    (g : ManagedEntry → ManagedEntry) :
    ((updateEntry s pid g).procs.map (·.pid)) = s.procs.map (·.pid) :=
  updateProc_pids s pid (fun p => { p with managed := p.managed.map g })
    (fun _ => rfl)

theorem findProc_updateEntry_eq (s : PMSt) (pid pid' : Nat)
    (g : ManagedEntry → ManagedEntry) :
    findProc (updateEntry s pid g) pid' =
      (findProc s pid').map (fun p =>
        if p.pid == pid then { p with managed := p.managed.map g } else p) :=
  findProc_update s pid pid' (fun p => { p with managed := p.managed.map g })
    (fun _ => rfl)

theorem noCritAt_sendSignal {s : PMSt} {pid : Nat} (pid' : Nat) (sig : Sig)
    (hnc : noCritAt s pid) : noCritAt (sendSignal s pid' sig).2 pid := by
  unfold sendSignal
  dsimp only
  split
  · exact noCritAt_congr rfl hnc
  · split
    · exact noCritAt_updateProc pid' (applySig sig) (applySig_pid sig)
        (applySig_name sig) (noCritAt_congr rfl hnc)
    · exact noCritAt_congr rfl hnc

theorem noCritAt_setProcessNiceValue {s : PMSt} {pid : Nat} (pid' : Nat)
    (v : Int) (hnc : noCritAt s pid) :
    noCritAt (setProcessNiceValue s pid' v).2 pid := by
  unfold setProcessNiceValue
  dsimp only
  split
  · exact noCritAt_congr rfl hnc
  · split
    · exact noCritAt_updateProc pid' _ (fun _ => rfl) (fun _ => rfl)
        (noCritAt_congr rfl hnc)
    · exact noCritAt_congr rfl hnc

theorem critStep_foldl {α : Type} (F : PMSt → α → PMSt)
    (h : ∀ t a, critStep t (F t a)) :
    ∀ (l : List α) (t : PMSt), critStep t (l.foldl F t) := by
  intro l
  induction l with
  | nil => intro t; exact critStep_refl t
  | cons a l ih => intro t; exact critStep_trans (h t a) (ih (F t a))

theorem critStep_foldl_pair {α : Type} (F : Nat × PMSt → α → Nat × PMSt)
    (h : ∀ acc a, critStep acc.2 (F acc a).2) :
    ∀ (l : List α) (acc : Nat × PMSt), critStep acc.2 (l.foldl F acc).2 := by
  intro l
  induction l with
  | nil => intro acc; exact critStep_refl acc.2
  | cons a l ih => intro acc; exact critStep_trans (h acc a) (ih (F acc a))

theorem critStep_restoreProcessPriority (s : PMSt) (pid now : Nat) :
    critStep s (restoreProcessPriority s pid now).2 := by
  unfold restoreProcessPriority
  dsimp only
  split
  · rename_i p heqf
    split
    · rename_i m heqm
      intro hinv
      obtain ⟨hnd, hok⟩ := hinv
      have hpmem : p ∈ s.procs := List.mem_of_find?_eq_some heqf
      have hppid : p.pid = pid := by
        simpa using List.find?_some (p := fun (r : Proc) => r.pid == pid) heqf
      by_cases hc : isProcessCritical p.name = true
      · obtain ⟨hb1, hb2, h3⟩ := hok p hpmem hc
        obtain ⟨ha, hb, hcs⟩ := h3 m heqm
        have hstepA : critStep s (updateEntry s pid (fun m' =>
            { m' with current_priority := m.original_priority,
                      last_action_time := now })) := by
          refine critStep_updateProc s pid _ (fun _ => rfl) (fun _ => rfl) ?_
          intro hnd' q hqmem hqpid _ hqok
          have hqp : q = p := pid_unique hnd' hqmem hpmem (by rw [hqpid, hppid])
          subst hqp
          refine ⟨⟨rfl, rfl, rfl, Or.inl rfl⟩, hqok.1, hqok.2.1, ?_⟩
          intro m' hm'
          dsimp only at hm'
          rw [heqm] at hm'
          have hgm := Option.some.inj hm'
          rw [← hgm]
          exact ⟨hb, hb, hcs⟩
        have hstepB : critStep
            (updateEntry s pid (fun m' =>
              { m' with current_priority := m.original_priority,
                        last_action_time := now }))
            (setProcessNiceValue
              (updateEntry s pid (fun m' =>
                { m' with current_priority := m.original_priority,
                          last_action_time := now }))
              pid m.original_priority).2 := by
          refine critStep_setProcessNiceValue _ pid _ ?_
          intro q hqmem hqpid _ _
          have hndB : (((updateEntry s pid (fun m' =>
              { m' with current_priority := m.original_priority,
                        last_action_time := now })).procs).map (·.pid)).Nodup := by
            rw [updateEntry_pids]
            exact hnd
          have hfB : findProc (updateEntry s pid (fun m' =>
              { m' with current_priority := m.original_priority,
                        last_action_time := now })) pid =
              some { p with managed := p.managed.map (fun m' =>
                { m' with current_priority := m.original_priority,
                          last_action_time := now }) } := by
            rw [findProc_updateEntry_eq, heqf]
            simp only [Option.map_some']
            rw [if_pos (by simp [hppid])]
          have hq : q = { p with managed := p.managed.map (fun m' =>
              { m' with current_priority := m.original_priority,
                        last_action_time := now }) } :=
            pid_unique hndB hqmem (List.mem_of_find?_eq_some hfB)
              (by rw [hqpid]; exact hppid.symm)
          subst hq
          show max (-20) (min 19 m.original_priority) = p.hostNice
          rw [hb]
          omega
        exact (critStep_trans hstepA hstepB) ⟨hnd, hok⟩
      · have hnc : noCritAt s pid := by
          intro q hq hqpid
          rw [pid_unique hnd hq hpmem (by rw [hqpid, hppid])]
          simpa using hc
        have hncA : noCritAt (updateEntry s pid (fun m' =>
            { m' with current_priority := m.original_priority,
                      last_action_time := now })) pid :=
          noCritAt_updateProc pid _ (fun _ => rfl) (fun _ => rfl) hnc
        exact (critStep_trans
          (critStep_updateProc_nc s pid (fun r =>
            { r with managed := r.managed.map (fun m' =>
              { m' with current_priority := m.original_priority,
                        last_action_time := now }) })
            (fun _ => rfl) (fun _ => rfl) hnc)
          (critStep_setProcessNiceValue_nc
            (updateEntry s pid (fun m' =>
              { m' with current_priority := m.original_priority,
                        last_action_time := now }))
            pid m.original_priority hncA)) ⟨hnd, hok⟩
    · exact critStep_refl s
  · exact critStep_refl s

theorem critStep_removeFromManaged (s : PMSt) (pid : Nat) :
    critStep s (removeFromManaged s pid) := by
  unfold removeFromManaged
  dsimp only
  split
  · rename_i p heqf
    split
    · rename_i m heqm
      intro hinv
      obtain ⟨hnd, hok⟩ := hinv
      have hpmem : p ∈ s.procs := List.mem_of_find?_eq_some heqf
      have hppid : p.pid = pid := by
        simpa using List.find?_some (p := fun (r : Proc) => r.pid == pid) heqf
      have h1 : critStep s (if m.current_priority ≠ m.original_priority then
          (setPriority s pid m.original_priority).2 else s) := by
        by_cases hne : m.current_priority ≠ m.original_priority
        · rw [if_pos hne]
          by_cases hc : isProcessCritical p.name = true
          · exfalso
            obtain ⟨_, _, h3⟩ := hok p hpmem hc
            obtain ⟨ha, hb, _⟩ := h3 m heqm
            exact hne (ha.trans hb.symm)
          · refine critStep_setProcessNiceValue_nc s pid _ ?_
            intro q hq hqpid
            rw [pid_unique hnd hq hpmem (by rw [hqpid, hppid])]
            simpa using hc
        · rw [if_neg hne]
          exact critStep_refl s
      generalize hT1 : (if m.current_priority ≠ m.original_priority then
          (setPriority s pid m.original_priority).2 else s) = T1 at h1 ⊢
      have h2 : critStep T1 (if m.current_state = PState.SUSPENDED then
          (resumeProcessSignal T1 pid).2 else T1) := by
        by_cases hsus : m.current_state = PState.SUSPENDED
        · rw [if_pos hsus]
          exact critStep_sendSignal_cont T1 pid
        · rw [if_neg hsus]
          exact critStep_refl T1
      generalize hT2 : (if m.current_state = PState.SUSPENDED then
          (resumeProcessSignal T1 pid).2 else T1) = T2 at h2 ⊢
      have h3 : critStep T2 (updateProc T2 pid
          (fun q => { q with managed := none })) := by
        refine critStep_updateProc T2 pid _ (fun _ => rfl) (fun _ => rfl) ?_
        intro _ q _ _ _ hqok
        exact ⟨⟨rfl, rfl, rfl, Or.inl rfl⟩, hqok.1, hqok.2.1,
          fun m' hm' => by simp at hm'⟩
      exact (critStep_trans h1 (critStep_trans h2 h3)) ⟨hnd, hok⟩
    · exact critStep_refl s
  · exact critStep_refl s

theorem critStep_addToManaged (s : PMSt) (pid : Nat) (is_critical : Bool)
    (now : Nat) : critStep s (addToManaged s pid is_critical now) := by
  unfold addToManaged
  dsimp only
  split
  · exact critStep_refl s
  · split
    · exact critStep_refl s
    · rename_i info heqm
      refine critStep_updateProc s pid _ (fun _ => rfl) (fun _ => rfl) ?_
      intro hnd q hqmem hqpid _ hqok
      obtain ⟨hmem, hinfopid, halive⟩ := monitorGetProcess_spec heqm
      have hfind : findProc s pid = some info := findProc_of_monitor hnd heqm
      have hq : q = info := pid_unique hnd hqmem hmem (by rw [hqpid, hinfopid])
      subst hq
      refine ⟨⟨rfl, rfl, rfl, Or.inl rfl⟩, hqok.1, hqok.2.1, ?_⟩
      intro m' hm'
      dsimp only at hm'
      have hme := Option.some.inj hm'
      rw [← hme]
      have hnice : getProcessNiceValue s pid = q.hostNice := by
        unfold getProcessNiceValue
        rw [hfind]
        simp [halive]
      exact ⟨hnice, hnice, rfl⟩

theorem critStep_updateManagedProcessInfo (s : PMSt) :
    critStep s (updateManagedProcessInfo s) := by
  unfold updateManagedProcessInfo
  refine critStep_map s _ ?_ ?_ ?_
  · intro p
    dsimp only
    by_cases h : hostAlive p = true
    · rw [if_pos h]
    · rw [if_neg h]
  · intro p
    dsimp only
    by_cases h : hostAlive p = true
    · rw [if_pos h]
    · rw [if_neg h]
  · intro _ p _ _ hok
    dsimp only
    by_cases h : hostAlive p = true
    · rw [if_pos h]
      exact ⟨⟨rfl, rfl, rfl, Or.inl rfl⟩, hok⟩
    · rw [if_neg h]
      exact ⟨⟨rfl, rfl, rfl, Or.inl rfl⟩, hok.1, hok.2.1,
        fun m' hm' => by simp at hm'⟩

theorem critStep_restoreAllProcesses (s : PMSt) :
    critStep s (restoreAllProcesses s) := by
  unfold restoreAllProcesses
  refine critStep_foldl _ ?_ _ _
  intro t pid
  dsimp only
  split
  · rename_i p heqf
    split
    · rename_i m heqm
      intro hinv
      obtain ⟨hnd, hok⟩ := hinv
      have hpmem : p ∈ t.procs := List.mem_of_find?_eq_some heqf
      have hppid : p.pid = pid := by
        simpa using List.find?_some (p := fun (r : Proc) => r.pid == pid) heqf
      have h1 : critStep t (if m.current_state = PState.SUSPENDED then
          (resumeProcessSignal t pid).2 else t) := by
        by_cases hsus : m.current_state = PState.SUSPENDED
        · rw [if_pos hsus]
          exact critStep_sendSignal_cont t pid
        · rw [if_neg hsus]
          exact critStep_refl t
      by_cases hc : isProcessCritical p.name = true
      · obtain ⟨_, _, h3⟩ := hok p hpmem hc
        obtain ⟨ha, hb, _⟩ := h3 m heqm
        rw [if_neg (show ¬ m.current_priority ≠ m.original_priority from
          fun hne => hne (ha.trans hb.symm))]
        exact h1 ⟨hnd, hok⟩
      · have hnc : noCritAt t pid := by
          intro q hq hqpid
          rw [pid_unique hnd hq hpmem (by rw [hqpid, hppid])]
          simpa using hc
        have hncT1 : noCritAt (if m.current_state = PState.SUSPENDED then
            (resumeProcessSignal t pid).2 else t) pid := by
          by_cases hsus : m.current_state = PState.SUSPENDED
          · rw [if_pos hsus]
            exact noCritAt_sendSignal pid Sig.SIGCONT hnc
          · rw [if_neg hsus]
            exact hnc
        generalize hT1 : (if m.current_state = PState.SUSPENDED then
            (resumeProcessSignal t pid).2 else t) = T1 at h1 hncT1 ⊢
        have h2 : critStep T1 (if m.current_priority ≠ m.original_priority then
            (setPriority T1 pid m.original_priority).2 else T1) := by
          by_cases hne : m.current_priority ≠ m.original_priority
          · rw [if_pos hne]
            exact critStep_setProcessNiceValue_nc T1 pid m.original_priority hncT1
          · rw [if_neg hne]
            exact critStep_refl T1
        exact (critStep_trans h1 h2) ⟨hnd, hok⟩
    · exact critStep_refl t
  · exact critStep_refl t

theorem critStep_handleHighSystemLoad (s : PMSt) (now : Nat) :
    critStep s (handleHighSystemLoad s now) := by
  unfold handleHighSystemLoad
  refine critStep_foldl _ ?_ _ _
  intro t pid
  dsimp only
  split
  · split
    · split
      · exact critStep_setProcessPriority t pid PRIORITY_LOW now
      · exact critStep_refl t
    · exact critStep_refl t
  · exact critStep_refl t

theorem critStep_pauseProcessesByCategory (s : PMSt) (category : String)
    (now : Nat) : critStep s (pauseProcessesByCategory s category now) := by
  unfold pauseProcessesByCategory
  refine critStep_foldl _ ?_ _ _
  intro t pid
  dsimp only
  split
  · split
    · split
      · exact critStep_pauseProcess t pid now
      · exact critStep_refl t
    · exact critStep_refl t
  · exact critStep_refl t

theorem critStep_resumeProcessesByCategory (s : PMSt) (category : String)
    (now : Nat) : critStep s (resumeProcessesByCategory s category now) := by
  unfold resumeProcessesByCategory
  refine critStep_foldl _ ?_ _ _
  intro t pid
  dsimp only
  split
  · split
    · split
      · exact critStep_resumeProcess t pid now
      · exact critStep_refl t
    · exact critStep_refl t
  · exact critStep_refl t

theorem critStep_terminateProcessesByName (s : PMSt) (name : String)
    (now : Nat) : critStep s (terminateProcessesByName s name now) := by
  unfold terminateProcessesByName
  refine critStep_foldl _ ?_ _ _
  intro t p
  exact critStep_terminateProcess t p.pid now

theorem critStep_emergencyKillHighMemoryProcesses (s : PMSt) (now : Nat) :
    critStep s (emergencyKillHighMemoryProcesses s now) := by
  unfold emergencyKillHighMemoryProcesses
  refine critStep_foldl _ ?_ _ _
  intro t p
  dsimp only
  split
  · exact critStep_terminateProcess t p.pid now
  · exact critStep_refl t

theorem critStep_optimizeProcessMemory (s : PMSt) (pid now : Nat) :
    critStep s (optimizeProcessMemory s pid now) := by
  unfold optimizeProcessMemory
  split
  · exact critStep_refl s
  · exact critStep_setProcessPriority s pid PRIORITY_LOW now

theorem critStep_killMemoryHoggingProcesses (s : PMSt)
    (target_free_kb now : Nat) :
    critStep s (killMemoryHoggingProcesses s target_free_kb now).2 := by
  unfold killMemoryHoggingProcesses
  refine critStep_foldl_pair _ ?_ _ ((0 : Nat), s)
  intro acc pid
  dsimp only
  split
  · exact critStep_refl acc.2
  · split
    · exact critStep_canModifyProcess acc.2 pid
    · split
      · exact critStep_trans (critStep_canModifyProcess acc.2 pid)
          (critStep_terminateProcess _ pid now)
      · exact critStep_trans (critStep_canModifyProcess acc.2 pid)
          (critStep_terminateProcess _ pid now)

theorem critStep_execOp (s : MMSt) (now : Nat) (op : MOp) :
    critStep s.pm (execOp s now op).pm := by
  cases op
  case setPrioPid pid prio => exact critStep_setProcessPriority s.pm pid prio now
  case pausePid pid => exact critStep_pauseProcess s.pm pid now
  all_goals exact critStep_refl s.pm

theorem critStep_runOps (now : Nat) :
    ∀ (ops : List MOp) (k : Nat) (s : MMSt),
      critStep s.pm (runOps now s ops k).2.pm := by
  intro ops
  induction ops with
  | nil => intro k s; exact critStep_refl s.pm
  | cons op rest ih =>
    intro k s
    cases k with
    | zero => exact critStep_refl s.pm
    | succ k =>
      exact critStep_trans (critStep_execOp s now op) (ih k (execOp s now op))

theorem critStep_restoreSystemState (s : MMSt) (now : Nat) :
    critStep s.pm (restoreSystemState s now).pm := by
  unfold restoreSystemState
  split
  · exact critStep_refl s.pm
  · dsimp only
    refine critStep_trans (critStep_foldl _ ?_ _ s.pm) (critStep_foldl _ ?_ _ _)
    · intro t e
      dsimp only
      split
      · exact critStep_setProcessPriority t e.1 e.2 now
      · exact critStep_refl t
    · intro t pid
      dsimp only
      split
      · exact critStep_resumeProcess t pid now
      · exact critStep_refl t

theorem critStep_switchToModeGo (s : MMSt) (mode : SystemMode)
    (fuel : Option Nat) (now : Nat) :
    critStep s.pm (switchToModeGo s mode fuel now).2.pm := by
  unfold switchToModeGo
  dsimp only
  have hpm : (backupCurrentState { s with mode_switching_active := true }).pm
      = s.pm := rfl
  generalize hS : backupCurrentState { s with mode_switching_active := true }
      = S at hpm ⊢
  generalize appleModeConfigurationOps (getModeConfiguration mode) S.pm = ops
  generalize (match fuel with | none => ops.length | some k => k) = k
  rw [← hpm]
  split
  · exact critStep_trans (critStep_runOps now ops k S)
      (critStep_restoreSystemState _ now)
  · exact critStep_runOps now ops k S

theorem critStep_switchToMode (s : MMSt) (mode : SystemMode)
    (fuel : Option Nat) (now : Nat) :
    critStep s.pm (switchToMode s mode fuel now).2.pm := by
  unfold switchToMode
  split
  · exact critStep_refl s.pm
  · split
    · exact critStep_refl s.pm
    · exact critStep_switchToModeGo s mode fuel now

/-- One public operation of the `ProcessManager` / `MemoryManager` layer, with
its host-visible parameters. -/
inductive SysOp where
  | terminate (pid now : Nat)
  | pause (pid now : Nat)
  | resume (pid now : Nat)
  | setPrio (pid : Nat) (priority : Int) (now : Nat)
  | restorePrio (pid now : Nat)
  | addManaged (pid : Nat) (is_critical : Bool) (now : Nat)
  | removeManaged (pid : Nat)
  | restoreAll
  | updateInfo
  | highLoad (now : Nat)
  | pauseCategory (category : String) (now : Nat)
  | resumeCategory (category : String) (now : Nat)
  | terminateByName (name : String) (now : Nat)
  | emergencyKill (now : Nat)
  | optimizeMem (pid now : Nat)
  | killHogs (target_free_kb now : Nat)

/-- Interpretation of one operation on the manager state. -/
def applySysOp (s : PMSt) : SysOp → PMSt
  | SysOp.terminate pid now => (terminateProcess s pid now).2
  | SysOp.pause pid now => (pauseProcess s pid now).2
  | SysOp.resume pid now => (resumeProcess s pid now).2
  | SysOp.setPrio pid priority now => (setProcessPriority s pid priority now).2
  | SysOp.restorePrio pid now => (restoreProcessPriority s pid now).2
  | SysOp.addManaged pid c now => addToManaged s pid c now
  | SysOp.removeManaged pid => removeFromManaged s pid
  | SysOp.restoreAll => restoreAllProcesses s
  | SysOp.updateInfo => updateManagedProcessInfo s
  | SysOp.highLoad now => handleHighSystemLoad s now
  | SysOp.pauseCategory c now => pauseProcessesByCategory s c now
  | SysOp.resumeCategory c now => resumeProcessesByCategory s c now
  | SysOp.terminateByName n now => terminateProcessesByName s n now
  | SysOp.emergencyKill now => emergencyKillHighMemoryProcesses s now
  | SysOp.optimizeMem pid now => optimizeProcessMemory s pid now
  | SysOp.killHogs t now => (killMemoryHoggingProcesses s t now).2

/-- Run a sequence of operations. -/
def runSysOps : PMSt → List SysOp → PMSt
  | s, [] => s
  | s, op :: rest => runSysOps (applySysOp s op) rest

theorem critStep_applySysOp (s : PMSt) (op : SysOp) :
    critStep s (applySysOp s op) := by
  cases op
  case terminate pid now => exact critStep_terminateProcess s pid now
  case pause pid now => exact critStep_pauseProcess s pid now
  case resume pid now => exact critStep_resumeProcess s pid now
  case setPrio pid priority now =>
    exact critStep_setProcessPriority s pid priority now
  case restorePrio pid now => exact critStep_restoreProcessPriority s pid now
  case addManaged pid c now => exact critStep_addToManaged s pid c now
  case removeManaged pid => exact critStep_removeFromManaged s pid
  case restoreAll => exact critStep_restoreAllProcesses s
  case updateInfo => exact critStep_updateManagedProcessInfo s
  case highLoad now => exact critStep_handleHighSystemLoad s now
  case pauseCategory c now => exact critStep_pauseProcessesByCategory s c now
  case resumeCategory c now => exact critStep_resumeProcessesByCategory s c now
  case terminateByName n now => exact critStep_terminateProcessesByName s n now
  case emergencyKill now =>
    exact critStep_emergencyKillHighMemoryProcesses s now
  case optimizeMem pid now => exact critStep_optimizeProcessMemory s pid now
  case killHogs t now => exact critStep_killMemoryHoggingProcesses s t now

theorem critStep_runSysOps :
    ∀ (ops : List SysOp) (s : PMSt), critStep s (runSysOps s ops) := by
  intro ops
  induction ops with
  | nil => intro s; exact critStep_refl s
  | cons op rest ih =>
    intro s
    exact critStep_trans (critStep_applySysOp s op) (ih (applySysOp s op))

/-- Fixture: a critical display server, running, with an untouched managed
entry. -/
def critC3Proc : Proc :=
  { pid := 42, name := "Xorg", rss_kb := 4096, hostNice := 0,
    hostRun := HostRun.running, perm := true, diesOnTerm := false,
    sigDeliveryFails := false,
    managed := some { original_priority := 0, current_priority := 0,
                      current_state := PState.RUNNING, last_action_time := 0,
                      is_critical := true, category := "critical" } }

/-- Fixture: a one-process table around `critC3Proc`. -/
def critC3St : PMSt :=
  { procs := [critC3Proc], total_terminated := 0, total_suspended := 0,
    sigTrace := [], niceTrace := [] }

/-- Fixture: the Balanced-mode manager over the critical table. -/
def mmC3 : MMSt := { balancedSt with pm := critC3St }

theorem critC3Inv : CritInv critC3St := by
  constructor
  · decide
  · intro p hp _
    have hp' : p = critC3Proc := by simpa [critC3St] using hp
    subst hp'
    refine ⟨by decide, by decide, ?_⟩
    intro m hm
    have hme := Option.some.inj hm
    subst hme
    exact ⟨rfl, rfl, rfl⟩

/-- **C3.** A critical-named process is never suspended, terminated or
re-niced by any operation. (i) The guard rejects `pauseProcess`,
`terminateProcess` and `setProcessPriority` on a pid the monitor maps to a
critical name before any host call: the calls return `false` with the state
unchanged (no `kill` or `setpriority` appears in the ghost traces). (ii) Any
sequence of `ProcessManager` / `MemoryManager` operations — including the
memory-emergency kill paths, which skip pids the guard rejects — preserves
the critical invariant (every critical process's managed entry stays
`RUNNING` with its recorded priorities equal to its host nice, so it never
transitions to `SUSPENDED` or `TERMINATED`) and leaves every critical process
present with its name and nice value intact, not newly dead and not newly
stopped. (iii) The same holds across a whole `ModeManager` mode switch, with
or without an injected apply-step exception. -/
theorem c3_critical_never_disturbed :
    (∀ (s : PMSt) (pid : Nat) (p : Proc) (priority : Int) (now : Nat),
      monitorGetProcess s pid = some p → isProcessCritical p.name = true →
      pauseProcess s pid now = (false, s) ∧
      terminateProcess s pid now = (false, s) ∧
      setProcessPriority s pid priority now = (false, s)) ∧
    (∀ (ops : List SysOp) (s : PMSt), CritInv s →
      CritInv (runSysOps s ops) ∧ critPreserved s (runSysOps s ops)) ∧
    (∀ (s : MMSt) (mode : SystemMode) (fuel : Option Nat) (now : Nat),
      CritInv s.pm →
      CritInv (switchToMode s mode fuel now).2.pm ∧
      critPreserved s.pm (switchToMode s mode fuel now).2.pm) := by
  refine ⟨?_, ?_, ?_⟩
  · intro s pid p priority now hm hc
    have hg := canModifyProcess_critical s pid p hm hc
    refine ⟨?_, ?_, ?_⟩
    · unfold pauseProcess
      dsimp only
      rw [hg]
      rfl
    · unfold terminateProcess
      dsimp only
      rw [hg]
      rfl
    · unfold setProcessPriority
      dsimp only
      rw [hg]
      rfl
  · intro ops s hinv
    exact critStep_runSysOps ops s hinv
  · intro s mode fuel now hinv
    exact critStep_switchToMode s mode fuel now hinv

/-- The operation sequence exercised by the C3 witness. -/
def opsC3 : List SysOp :=
  [SysOp.pause 42 1, SysOp.terminate 42 2, SysOp.setPrio 42 (-5) 3,
   SysOp.resume 42 4, SysOp.restorePrio 42 5, SysOp.highLoad 6,
   SysOp.emergencyKill 7, SysOp.killHogs 1000000 8, SysOp.restoreAll,
   SysOp.updateInfo]

theorem c3_critical_never_disturbed_witness :
    (pauseProcess critC3St 42 1 = (false, critC3St) ∧
     terminateProcess critC3St 42 1 = (false, critC3St) ∧
     setProcessPriority critC3St 42 19 1 = (false, critC3St)) ∧
    (CritInv (runSysOps critC3St opsC3) ∧
     critPreserved critC3St (runSysOps critC3St opsC3)) ∧
    (CritInv (switchToMode mmC3 SystemMode.GAMING (some 3) 4).2.pm ∧
     critPreserved mmC3.pm
       (switchToMode mmC3 SystemMode.GAMING (some 3) 4).2.pm) := by
  obtain ⟨h1, h2, h3⟩ := c3_critical_never_disturbed
  exact ⟨h1 critC3St 42 critC3Proc 19 1 rfl (by decide),
    h2 opsC3 critC3St critC3Inv,
    h3 mmC3 SystemMode.GAMING (some 3) 4 critC3Inv⟩
